import Mathlib

/-!
Portainer: Docker proxy access-control pipelines and the DB version 22 migration

Shallow embedding of

* `api/http/proxy/provider/docker/services.go`
* `api/http/proxy/provider/docker/tasks.go`
* `api/bolt/migrator/migrate_dbversion20.go`

Go values of type `interface{}` obtained from `encoding/json` are modelled by the type
`JSON`; a `map[string]interface{}` is an association list.  A failed type assertion
is a run-time panic and is modelled by `Run.panic`.  The `responseutils` package, the
access-control helpers of the `docker` package, the default authorization tables and
the authorization service live outside the three files above and are taken as
parameters; the bolt services are modelled as a key-value store that records its calls
and can be told which call fails.  The scenarios of section 8 of the specification are
evaluated with the decision engine written out from its section 4.3.
-/

namespace Portainer

/-! ## Data model -/

/-- Generic JSON value, as produced by decoding into a Go `interface{}`.
The Go `nil` interface value is `JSON.null`. -/
inductive JSON where
  | null
  | bool (b : Bool)
  | num (n : Int)
  | str (s : String)
  | arr (xs : List JSON)
  | obj (kvs : List (String × JSON))

/-- Go `map[string]interface{}`. -/
abbrev JMap := List (String × JSON)

/-- Go map indexing `m[k]`: the stored value, or `nil` when the key is absent. -/
def JMap.index (m : JMap) (k : String) : JSON :=
  match m.lookup k with
  | some v => v
  | none => JSON.null

/-- Go `error` values are identified by their message. -/
abbrev GoError := String

/-- Outcome of running Go code that may panic on a failed type assertion. -/
inductive Run (α : Type) where
  | done (a : α)
  | panic

/-- Modelled from the spec: `portainer.ResourceControlType`, the enumerated resource kind
(section 3, "service, container, task, volume, stack"); the declaration is not in the
shown files. -/
inductive ResourceControlType where
  | ContainerResourceControl
  | ServiceResourceControl
  | TaskResourceControl
  | VolumeResourceControl
  | StackResourceControl
  deriving DecidableEq, Repr

/-- Modelled from the spec: `portainer.ResourceControl` (section 3); the declaration is not
in the shown files. -/
structure ResourceControl where
  ID : Nat
  ResourceIdentifier : String
  Type_ : ResourceControlType
  Public : Bool
  AdministratorsOnly : Bool
  OwnerUserIDs : List Nat
  OwnerTeamIDs : List Nat
  deriving DecidableEq, Repr

/-- Modelled from the spec: `restrictedDockerOperationContext` (section 3,
"OperationContext"); the declaration is not in the shown files. -/
structure restrictedDockerOperationContext where
  isAdmin : Bool
  endpointResourceAccess : Bool
  userID : Nat
  userTeamIDs : List Nat
  resourceControls : List ResourceControl

/-- The part of `operationExecutor` used by the operations. -/
structure operationExecutor where
  operationContext : restrictedDockerOperationContext

/-- The functions of package `responseutils` used by the operations, taken as given
(section 6 of the spec); `Resp` stands for `*http.Response`. -/
structure responseutils (Resp : Type) where
  GetResponseAsJSONArray : Resp → Except GoError (List JSON)
  GetResponseAsJSONOBject : Resp → Except GoError JMap
  GetJSONObject : JMap → String → Option JMap
  RewriteResponse : Resp → JSON → Nat → Option GoError
  RewriteAccessDeniedResponse : Resp → Option GoError

/-- The access-control helpers of package `docker` used by the pipelines, taken as given
pure functions (section 4.3 of the spec).  A `nil` labels map is `none`. -/
structure accessControl where
  applyResourceAccessControl :
    JMap → String → restrictedDockerOperationContext → ResourceControlType → JMap × Bool
  applyResourceAccessControlFromLabel :
    Option JMap → JMap → String → restrictedDockerOperationContext → ResourceControlType →
      JMap × Bool
  decorateResourceWithAccessControl :
    JMap → String → List ResourceControl → ResourceControlType → JMap
  decorateResourceWithAccessControlFromLabel :
    Option JMap → JMap → String → List ResourceControl → ResourceControlType → JMap

/-- A call made on the response by an operation. -/
inductive ResponseCall (Resp : Type) where
  | RewriteResponse (response : Resp) (body : JSON) (status : Nat)
  | RewriteAccessDeniedResponse (response : Resp)

/-- What an operation did: the rewriting calls it made on the response, in order, and
the `error` it returned (`none` is Go `nil`). -/
structure OperationResult (Resp : Type) where
  calls : List (ResponseCall Resp)
  err : Option GoError

/-- Go `([]interface{}, error)`: `none` in the first component is the `nil` slice. -/
abbrev ListResult := Option (List JSON) × Option GoError

/-- Constant `http.StatusOK`. -/
def StatusOK : Nat := 200

/-! ## services.go -/

/-- Constant `errDockerServiceIdentifierNotFound`. -/
def errDockerServiceIdentifierNotFound : GoError := "Docker service identifier not found"

/-- Constant `serviceIdentifier`. -/
def serviceIdentifier : String := "ID"

/-- Constant `serviceLabelForStackIdentifier`. -/
def serviceLabelForStackIdentifier : String := "com.docker.stack.namespace"

/-- Source function `extractServiceLabelsFromServiceInspectObject`: labels are stored under Spec.Labels. -/
def extractServiceLabelsFromServiceInspectObject {Resp : Type} (ru : responseutils Resp)
    (responseObject : JMap) : Option JMap :=
  match ru.GetJSONObject responseObject "Spec" with
  | some serviceSpecObject => ru.GetJSONObject serviceSpecObject "Labels"
  | none => none

/-- Source function `extractServiceLabelsFromServiceListObject`: labels are stored under Spec.Labels. -/
def extractServiceLabelsFromServiceListObject {Resp : Type} (ru : responseutils Resp)
    (responseObject : JMap) : Option JMap :=
  match ru.GetJSONObject responseObject "Spec" with
  | some serviceSpecObject => ru.GetJSONObject serviceSpecObject "Labels"
  | none => none

/-- The `for ... range serviceData` loop of `decorateServiceList`; the second list is
`decoratedServiceData`. -/
def decorateServiceListLoop {Resp : Type} (ru : responseutils Resp) (ac : accessControl)
    (resourceControls : List ResourceControl) : List JSON → List JSON → Run ListResult
  | [], decoratedServiceData => Run.done (some decoratedServiceData, none)
  | service :: rest, decoratedServiceData =>
    match service with
    | JSON.obj serviceObject =>
      match JMap.index serviceObject serviceIdentifier with
      | JSON.null => Run.done (none, some errDockerServiceIdentifierNotFound)
      | JSON.str serviceID =>
        let serviceObject1 := ac.decorateResourceWithAccessControl serviceObject serviceID
          resourceControls ResourceControlType.ServiceResourceControl
        let serviceLabels := extractServiceLabelsFromServiceListObject ru serviceObject1
        let serviceObject2 := ac.decorateResourceWithAccessControlFromLabel serviceLabels
          serviceObject1 serviceLabelForStackIdentifier resourceControls
          ResourceControlType.StackResourceControl
        decorateServiceListLoop ru ac resourceControls rest
          (decoratedServiceData ++ [JSON.obj serviceObject2])
      | _ => Run.panic
    | _ => Run.panic

/-- Source function `decorateServiceList`. -/
def decorateServiceList {Resp : Type} (ru : responseutils Resp) (ac : accessControl)
    (serviceData : List JSON) (resourceControls : List ResourceControl) : Run ListResult :=
  decorateServiceListLoop ru ac resourceControls serviceData []

/-- The `for ... range serviceData` loop of `filterServiceList`; the second list is
`filteredServiceData`. -/
def filterServiceListLoop {Resp : Type} (ru : responseutils Resp) (ac : accessControl)
    (context : restrictedDockerOperationContext) : List JSON → List JSON → Run ListResult
  | [], filteredServiceData => Run.done (some filteredServiceData, none)
  | service :: rest, filteredServiceData =>
    match service with
    | JSON.obj serviceObject =>
      match JMap.index serviceObject serviceIdentifier with
      | JSON.null => Run.done (none, some errDockerServiceIdentifierNotFound)
      | JSON.str serviceID =>
        let r1 := ac.applyResourceAccessControl serviceObject serviceID context
          ResourceControlType.ServiceResourceControl
        let r2 :=
          if !r1.2 then
            ac.applyResourceAccessControlFromLabel
              (extractServiceLabelsFromServiceListObject ru r1.1) r1.1
              serviceLabelForStackIdentifier context ResourceControlType.StackResourceControl
          else r1
        if r2.2 then
          filterServiceListLoop ru ac context rest (filteredServiceData ++ [JSON.obj r2.1])
        else
          filterServiceListLoop ru ac context rest filteredServiceData
      | _ => Run.panic
    | _ => Run.panic

/-- Source function `filterServiceList`. -/
def filterServiceList {Resp : Type} (ru : responseutils Resp) (ac : accessControl)
    (serviceData : List JSON) (context : restrictedDockerOperationContext) : Run ListResult :=
  filterServiceListLoop ru ac context serviceData []

/-- Source function `serviceListOperation`. -/
def serviceListOperation {Resp : Type} (ru : responseutils Resp) (ac : accessControl)
    (response : Resp) (executor : operationExecutor) : Run (OperationResult Resp) :=
  match ru.GetResponseAsJSONArray response with
  | Except.error err => Run.done ⟨[], some err⟩
  | Except.ok responseArray =>
    let r :=
      if executor.operationContext.isAdmin || executor.operationContext.endpointResourceAccess then
        decorateServiceList ru ac responseArray executor.operationContext.resourceControls
      else
        filterServiceList ru ac responseArray executor.operationContext
    match r with
    | Run.panic => Run.panic
    | Run.done (_, some err) => Run.done ⟨[], some err⟩
    | Run.done (none, none) =>
      Run.done ⟨[ResponseCall.RewriteResponse response JSON.null StatusOK],
        ru.RewriteResponse response JSON.null StatusOK⟩
    | Run.done (some responseArray1, none) =>
      Run.done ⟨[ResponseCall.RewriteResponse response (JSON.arr responseArray1) StatusOK],
        ru.RewriteResponse response (JSON.arr responseArray1) StatusOK⟩

/-- Source function `serviceInspectOperation`. -/
def serviceInspectOperation {Resp : Type} (ru : responseutils Resp) (ac : accessControl)
    (response : Resp) (executor : operationExecutor) : Run (OperationResult Resp) :=
  match ru.GetResponseAsJSONOBject response with
  | Except.error err => Run.done ⟨[], some err⟩
  | Except.ok responseObject =>
    match JMap.index responseObject serviceIdentifier with
    | JSON.null => Run.done ⟨[], some errDockerServiceIdentifierNotFound⟩
    | JSON.str serviceID =>
      let r1 := ac.applyResourceAccessControl responseObject serviceID
        executor.operationContext ResourceControlType.ServiceResourceControl
      if r1.2 then
        Run.done ⟨[ResponseCall.RewriteResponse response (JSON.obj r1.1) StatusOK],
          ru.RewriteResponse response (JSON.obj r1.1) StatusOK⟩
      else
        let serviceLabels := extractServiceLabelsFromServiceInspectObject ru r1.1
        let r2 := ac.applyResourceAccessControlFromLabel serviceLabels r1.1
          serviceLabelForStackIdentifier executor.operationContext
          ResourceControlType.StackResourceControl
        if r2.2 then
          Run.done ⟨[ResponseCall.RewriteResponse response (JSON.obj r2.1) StatusOK],
            ru.RewriteResponse response (JSON.obj r2.1) StatusOK⟩
        else
          Run.done ⟨[ResponseCall.RewriteAccessDeniedResponse response],
            ru.RewriteAccessDeniedResponse response⟩
    | _ => Run.panic

/-! ## tasks.go -/

/-- Constant `errDockerTaskServiceIdentifierNotFound`. -/
def errDockerTaskServiceIdentifierNotFound : GoError :=
  "Docker task service identifier not found"

/-- Constant `taskServiceIdentifier`. -/
def taskServiceIdentifier : String := "ServiceID"

/-- Constant `taskLabelForStackIdentifier`. -/
def taskLabelForStackIdentifier : String := "com.docker.stack.namespace"

/-- Source function `extractTaskLabelsFromTaskListObject`: labels are stored under
Spec.ContainerSpec.Labels. -/
def extractTaskLabelsFromTaskListObject {Resp : Type} (ru : responseutils Resp)
    (responseObject : JMap) : Option JMap :=
  match ru.GetJSONObject responseObject "Spec" with
  | some taskSpecObject =>
    match ru.GetJSONObject taskSpecObject "ContainerSpec" with
    | some containerSpecObject => ru.GetJSONObject containerSpecObject "Labels"
    | none => none
  | none => none

/-- The `for ... range taskData` loop of `filterTaskList`; the second list is
`filteredTaskData`. -/
def filterTaskListLoop {Resp : Type} (ru : responseutils Resp) (ac : accessControl)
    (context : restrictedDockerOperationContext) : List JSON → List JSON → Run ListResult
  | [], filteredTaskData => Run.done (some filteredTaskData, none)
  | task :: rest, filteredTaskData =>
    match task with
    | JSON.obj taskObject =>
      match JMap.index taskObject taskServiceIdentifier with
      | JSON.null => Run.done (none, some errDockerTaskServiceIdentifierNotFound)
      | JSON.str serviceID =>
        let r1 := ac.applyResourceAccessControl taskObject serviceID context
          ResourceControlType.ServiceResourceControl
        let r2 :=
          if !r1.2 then
            ac.applyResourceAccessControlFromLabel
              (extractTaskLabelsFromTaskListObject ru r1.1) r1.1
              taskLabelForStackIdentifier context ResourceControlType.StackResourceControl
          else r1
        if r2.2 then
          filterTaskListLoop ru ac context rest (filteredTaskData ++ [JSON.obj r2.1])
        else
          filterTaskListLoop ru ac context rest filteredTaskData
      | _ => Run.panic
    | _ => Run.panic

/-- Source function `filterTaskList`. -/
def filterTaskList {Resp : Type} (ru : responseutils Resp) (ac : accessControl)
    (taskData : List JSON) (context : restrictedDockerOperationContext) : Run ListResult :=
  filterTaskListLoop ru ac context taskData []

/-- Source function `taskListOperation`. -/
def taskListOperation {Resp : Type} (ru : responseutils Resp) (ac : accessControl)
    (response : Resp) (executor : operationExecutor) : Run (OperationResult Resp) :=
  match ru.GetResponseAsJSONArray response with
  | Except.error err => Run.done ⟨[], some err⟩
  | Except.ok responseArray =>
    if !executor.operationContext.isAdmin && !executor.operationContext.endpointResourceAccess then
      match filterTaskList ru ac responseArray executor.operationContext with
      | Run.panic => Run.panic
      | Run.done (_, some err) => Run.done ⟨[], some err⟩
      | Run.done (none, none) =>
        Run.done ⟨[ResponseCall.RewriteResponse response JSON.null StatusOK],
          ru.RewriteResponse response JSON.null StatusOK⟩
      | Run.done (some responseArray1, none) =>
        Run.done ⟨[ResponseCall.RewriteResponse response (JSON.arr responseArray1) StatusOK],
          ru.RewriteResponse response (JSON.arr responseArray1) StatusOK⟩
    else
      Run.done ⟨[ResponseCall.RewriteResponse response (JSON.arr responseArray) StatusOK],
        ru.RewriteResponse response (JSON.arr responseArray) StatusOK⟩

/-! ## The shape shared by the three list loops -/

/-- The element is a JSON object whose identifier field `key` holds a string: the
resource carries its identifier. -/
def carriesIdentifier (key : String) (x : JSON) : Prop :=
  ∃ m id, x = JSON.obj m ∧ JMap.index m key = JSON.str id

/-- The element is a JSON object whose identifier field `key` is absent (Go `nil`). -/
def lacksIdentifier (key : String) (x : JSON) : Prop :=
  ∃ m, x = JSON.obj m ∧ JMap.index m key = JSON.null

/-- The two-stage decision of filter mode on one resource object: the primary decision
by identifier and, when it denies, the label-derived decision on its returned object. -/
def filterDecision (ac : accessControl) (extract : JMap → Option JMap) (labelKey : String)
    (context : restrictedDockerOperationContext) (m : JMap) (id : String) : JMap × Bool :=
  let r1 := ac.applyResourceAccessControl m id context
    ResourceControlType.ServiceResourceControl
  if !r1.2 then
    ac.applyResourceAccessControlFromLabel (extract r1.1) r1.1 labelKey context
      ResourceControlType.StackResourceControl
  else r1

/-- What filter mode appends for one resource object: the decided object when access is
granted, nothing otherwise. -/
def filterStep (ac : accessControl) (extract : JMap → Option JMap) (labelKey : String)
    (context : restrictedDockerOperationContext) (m : JMap) (id : String) : Option JMap :=
  if (filterDecision ac extract labelKey context m id).2 then
    some (filterDecision ac extract labelKey context m id).1
  else none

/-- The two decorations of decorate-all mode on one service object, the label-derived one
applied on top of the primary one. -/
def decorateBoth {Resp : Type} (ru : responseutils Resp) (ac : accessControl)
    (resourceControls : List ResourceControl) (m : JMap) (id : String) : JMap :=
  ac.decorateResourceWithAccessControlFromLabel
    (extractServiceLabelsFromServiceListObject ru
      (ac.decorateResourceWithAccessControl m id resourceControls
        ResourceControlType.ServiceResourceControl))
    (ac.decorateResourceWithAccessControl m id resourceControls
      ResourceControlType.ServiceResourceControl)
    serviceLabelForStackIdentifier resourceControls ResourceControlType.StackResourceControl

/-- Common form of the loops: check the element is an object, check its identifier,
then append what `step` yields. -/
def listLoop (key : String) (err : GoError) (step : JMap → String → Option JMap) :
    List JSON → List JSON → Run ListResult
  | [], acc => Run.done (some acc, none)
  | x :: rest, acc =>
    match x with
    | JSON.obj m =>
      match JMap.index m key with
      | JSON.null => Run.done (none, some err)
      | JSON.str id =>
        match step m id with
        | some m1 => listLoop key err step rest (acc ++ [JSON.obj m1])
        | none => listLoop key err step rest acc
      | _ => Run.panic
    | _ => Run.panic

/-- What one input element contributes to the output of `listLoop`. -/
def contribution (key : String) (step : JMap → String → Option JMap) (x : JSON) :
    Option JSON :=
  match x with
  | JSON.obj m =>
    match JMap.index m key with
    | JSON.str id => (step m id).map JSON.obj
    | _ => none
  | _ => none

/-- A resource object of a list response: a JSON object whose identifier field is either
absent or a string. -/
def isResourceObject (key : String) (x : JSON) : Prop :=
  carriesIdentifier key x ∨ lacksIdentifier key x

/-! ## migrate_dbversion20.go -/

/-- Modelled from the spec: `portainer.Authorizations`, a set of permission tokens
(section 3); the declaration is not in the shown files. -/
abbrev Authorizations := List String

/-- Modelled from the spec: `portainer.User` with its materialized
`PortainerAuthorizations` snapshot (section 3); the declaration is not in the shown
files. -/
structure User where
  ID : Nat
  Username : String
  Role : Nat
  PortainerAuthorizations : Authorizations
  deriving DecidableEq, Repr

/-- Modelled from the spec: `portainer.Role`, mapping to a set of default authorization
grants (section 3); the declaration is not in the shown files. -/
structure Role where
  ID : Nat
  Name : String
  Authorizations : Authorizations
  deriving DecidableEq, Repr

/-- The per-role default authorization tables of package `portainer`, taken as given
(section 9: immutable static tables). -/
structure portainerDefaults where
  DefaultPortainerAuthorizations : Authorizations
  DefaultEndpointAuthorizationsForEndpointAdministratorRole : Authorizations
  DefaultEndpointAuthorizationsForHelpDeskRole : Authorizations
  DefaultEndpointAuthorizationsForStandardUserRole : Authorizations
  DefaultEndpointAuthorizationsForReadOnlyUserRole : Authorizations

/-- A storage call made by the migration, with its arguments. -/
inductive StorageCall where
  | ResourceControls
  | UpdateResourceControl (id : Nat) (resourceControl : ResourceControl)
  | Users
  | UpdateUser (id : Nat) (user : User)
  | Role (id : Nat)
  | UpdateRole (id : Nat) (role : Role)
  deriving DecidableEq, Repr

/-- Modelled from the spec: the persistent store behind the services of the `Migrator`
(section 6: `ResourceControlRegistry`, `UserStore`, `RoleStore`), which are not in the
shown files.  Each bucket maps a key to a record; `log` is the sequence of storage calls
made so far; `faults n` is the error, if any, with which the call number `n` (counted from
zero) fails. -/
structure Store where
  resourceControls : List (Nat × ResourceControl)
  users : List (Nat × User)
  roles : List (Nat × Role)
  log : List StorageCall
  faults : Nat → Option GoError

/-- Unconditional overwrite of the record stored under `key` (inserted when absent). -/
def put {α : Type} (key : Nat) (v : α) : List (Nat × α) → List (Nat × α)
  | [] => [(key, v)]
  | (k, w) :: rest => if k = key then (key, v) :: rest else (k, w) :: put key v rest

/-- The error injected into the next storage call. -/
def Store.fault (s : Store) : Option GoError := s.faults s.log.length

/-- The store after recording one more call. -/
def Store.record (s : Store) (c : StorageCall) : Store :=
  { s with log := s.log ++ [c] }

/-- Constant `portainer.ErrObjectNotFound`, returned by a lookup of a missing key. -/
def ErrObjectNotFound : GoError := "Object not found inside the database"

/-- Service call `resourceControlService.ResourceControls()`. -/
def resourceControlService.ResourceControls (s : Store) : Store × Except GoError (List ResourceControl) :=
  match s.fault with
  | some err => (s.record StorageCall.ResourceControls, Except.error err)
  | none =>
    (s.record StorageCall.ResourceControls, Except.ok (s.resourceControls.map Prod.snd))

/-- Service call `resourceControlService.UpdateResourceControl(ID, resourceControl)`. -/
def resourceControlService.UpdateResourceControl (s : Store) (ID : Nat) (resourceControl : ResourceControl) :
    Store × Option GoError :=
  match s.fault with
  | some err => (s.record (StorageCall.UpdateResourceControl ID resourceControl), some err)
  | none =>
    ({ s with resourceControls := put ID resourceControl s.resourceControls }.record
      (StorageCall.UpdateResourceControl ID resourceControl), none)

/-- Service call `userService.Users()`. -/
def userService.Users (s : Store) : Store × Except GoError (List User) :=
  match s.fault with
  | some err => (s.record StorageCall.Users, Except.error err)
  | none => (s.record StorageCall.Users, Except.ok (s.users.map Prod.snd))

/-- Service call `userService.UpdateUser(ID, user)`. -/
def userService.UpdateUser (s : Store) (ID : Nat) (user : User) : Store × Option GoError :=
  match s.fault with
  | some err => (s.record (StorageCall.UpdateUser ID user), some err)
  | none => ({ s with users := put ID user s.users }.record (StorageCall.UpdateUser ID user), none)

/-- Service call `roleService.Role(ID)`. -/
def roleService.Role (s : Store) (ID : Nat) : Store × Except GoError Portainer.Role :=
  match s.fault with
  | some err => (s.record (StorageCall.Role ID), Except.error err)
  | none =>
    match s.roles.lookup ID with
    | some role => (s.record (StorageCall.Role ID), Except.ok role)
    | none => (s.record (StorageCall.Role ID), Except.error ErrObjectNotFound)

/-- Service call `roleService.UpdateRole(ID, role)`. -/
def roleService.UpdateRole (s : Store) (ID : Nat) (role : Portainer.Role) : Store × Option GoError :=
  match s.fault with
  | some err => (s.record (StorageCall.UpdateRole ID role), some err)
  | none => ({ s with roles := put ID role s.roles }.record (StorageCall.UpdateRole ID role), none)

/-- The `for ... range legacyResourceControls` loop of
`updateResourceControlsToDBVersion22`. -/
def updateResourceControlsLoop : List ResourceControl → Store → Store × Option GoError
  | [], s => (s, none)
  | resourceControl :: rest, s =>
    match resourceControlService.UpdateResourceControl s resourceControl.ID
        { resourceControl with AdministratorsOnly := false } with
    | (s1, some err) => (s1, some err)
    | (s1, none) => updateResourceControlsLoop rest s1

/-- Source function `updateResourceControlsToDBVersion22`. -/
def updateResourceControlsToDBVersion22 (s : Store) : Store × Option GoError :=
  match resourceControlService.ResourceControls s with
  | (s1, Except.error err) => (s1, some err)
  | (s1, Except.ok legacyResourceControls) =>
    updateResourceControlsLoop legacyResourceControls s1

/-- The `for ... range legacyUsers` loop of `updateUsersAndRolesToDBVersion22`. -/
def updateUsersLoop (d : portainerDefaults) : List User → Store → Store × Option GoError
  | [], s => (s, none)
  | user :: rest, s =>
    match userService.UpdateUser s user.ID
        { user with PortainerAuthorizations := d.DefaultPortainerAuthorizations } with
    | (s1, some err) => (s1, some err)
    | (s1, none) => updateUsersLoop d rest s1

/-- Source function `updateUsersAndRolesToDBVersion22`.  Every role is read with
`portainer.RoleID(1)`, and the error returned by each `UpdateRole` is overwritten by the
assignment that follows it.  `UpdateUsersAuthorizations` is the recomputation of the
authorization service, taken as given. -/
def updateUsersAndRolesToDBVersion22 (d : portainerDefaults)
    (UpdateUsersAuthorizations : Store → Store × Option GoError) (s : Store) :
    Store × Option GoError :=
  match userService.Users s with
  | (s1, Except.error err) => (s1, some err)
  | (s1, Except.ok legacyUsers) =>
    match updateUsersLoop d legacyUsers s1 with
    | (s2, some err) => (s2, some err)
    | (s2, none) =>
      match roleService.Role s2 1 with
      | (s3, Except.error err) => (s3, some err)
      | (s3, Except.ok endpointAdministratorRole) =>
        let s4 := (roleService.UpdateRole s3 endpointAdministratorRole.ID
          { endpointAdministratorRole with
            Authorizations := d.DefaultEndpointAuthorizationsForEndpointAdministratorRole }).1
        match roleService.Role s4 1 with
        | (s5, Except.error err) => (s5, some err)
        | (s5, Except.ok helpDeskRole) =>
          let s6 := (roleService.UpdateRole s5 helpDeskRole.ID
            { helpDeskRole with
              Authorizations := d.DefaultEndpointAuthorizationsForHelpDeskRole }).1
          match roleService.Role s6 1 with
          | (s7, Except.error err) => (s7, some err)
          | (s7, Except.ok standardUserRole) =>
            let s8 := (roleService.UpdateRole s7 standardUserRole.ID
              { standardUserRole with
                Authorizations := d.DefaultEndpointAuthorizationsForStandardUserRole }).1
            match roleService.Role s8 1 with
            | (s9, Except.error err) => (s9, some err)
            | (s9, Except.ok readOnlyUserRole) =>
              let s10 := (roleService.UpdateRole s9 readOnlyUserRole.ID
                { readOnlyUserRole with
                  Authorizations := d.DefaultEndpointAuthorizationsForReadOnlyUserRole }).1
              UpdateUsersAuthorizations s10

/-! ## Sample collaborators, for evaluating the code on concrete inputs -/

/-- Modelled from the spec: `responseutils.GetJSONObject` (section 6, "ReadNestedField":
single-level field access, none if absent or of the wrong shape); the function is not in
the shown files. -/
def GetJSONObject (jsonObject : JMap) (property : String) : Option JMap :=
  match JMap.index jsonObject property with
  | JSON.obj object => some object
  | _ => none

/-- A `responseutils` in which a response is its decoded body and rewriting always
succeeds. -/
def bodyResponseutils : responseutils JSON where
  GetResponseAsJSONArray := fun response =>
    match response with
    | JSON.arr xs => Except.ok xs
    | _ => Except.error "response is not a JSON array"
  GetResponseAsJSONOBject := fun response =>
    match response with
    | JSON.obj m => Except.ok m
    | _ => Except.error "response is not a JSON object"
  GetJSONObject := GetJSONObject
  RewriteResponse := fun _ _ _ => none
  RewriteAccessDeniedResponse := fun _ => none

/-- A sample policy: the primary decision allows the identifiers listed in `allowed`, the
label-derived decision allows the label values listed in `stackNames`, and each decoration
adds one field naming the control it found. -/
def sampleAccessControl (allowed stackNames : List String) : accessControl where
  applyResourceAccessControl := fun m id _ _ =>
    if allowed.contains id then (m ++ [("Portainer", JSON.str id)], true) else (m, false)
  applyResourceAccessControlFromLabel := fun labels m labelKey _ _ =>
    match labels with
    | some l =>
      match JMap.index l labelKey with
      | JSON.str v =>
        if stackNames.contains v then (m ++ [("Portainer", JSON.str v)], true) else (m, false)
      | _ => (m, false)
    | none => (m, false)
  decorateResourceWithAccessControl := fun m id _ _ =>
    if allowed.contains id then m ++ [("Portainer", JSON.str id)] else m
  decorateResourceWithAccessControlFromLabel := fun labels m labelKey _ _ =>
    match labels with
    | some l =>
      match JMap.index l labelKey with
      | JSON.str v => if stackNames.contains v then m ++ [("PortainerStack", JSON.str v)] else m
      | _ => m
    | none => m

/-- A context of an unprivileged principal without resource controls. -/
def sampleContext : restrictedDockerOperationContext :=
  { isAdmin := false, endpointResourceAccess := false, userID := 7, userTeamIDs := [],
    resourceControls := [] }

/-- A context of an administrator without resource controls. -/
def adminContext : restrictedDockerOperationContext :=
  { isAdmin := true, endpointResourceAccess := false, userID := 1, userTeamIDs := [],
    resourceControls := [] }

/-- A `responseutils` over an opaque response handle whose body decodes to `body`;
rewriting always succeeds. -/
def fixedBodyResponseutils (body : JSON) : responseutils Unit where
  GetResponseAsJSONArray := fun _ =>
    match body with
    | JSON.arr xs => Except.ok xs
    | _ => Except.error "response is not a JSON array"
  GetResponseAsJSONOBject := fun _ =>
    match body with
    | JSON.obj m => Except.ok m
    | _ => Except.error "response is not a JSON object"
  GetJSONObject := GetJSONObject
  RewriteResponse := fun _ _ _ => none
  RewriteAccessDeniedResponse := fun _ => none

/-- Sample default authorization tables, one distinct token per table. -/
def sampleDefaults : portainerDefaults :=
  { DefaultPortainerAuthorizations := ["PortainerDefault"],
    DefaultEndpointAuthorizationsForEndpointAdministratorRole := ["EndpointAdministrator"],
    DefaultEndpointAuthorizationsForHelpDeskRole := ["HelpDesk"],
    DefaultEndpointAuthorizationsForStandardUserRole := ["StandardUser"],
    DefaultEndpointAuthorizationsForReadOnlyUserRole := ["ReadOnlyUser"] }

/-- A store before the migration: one user and the four built-in roles under the keys
1 to 4, each with a legacy authorization set; no storage call fails. -/
def legacyStore : Store :=
  { resourceControls := [],
    users := [(1, { ID := 1, Username := "admin", Role := 1, PortainerAuthorizations := ["Legacy"] })],
    roles := [(1, { ID := 1, Name := "Endpoint administrator", Authorizations := ["Legacy1"] }),
      (2, { ID := 2, Name := "Helpdesk", Authorizations := ["Legacy2"] }),
      (3, { ID := 3, Name := "Standard user", Authorizations := ["Legacy3"] }),
      (4, { ID := 4, Name := "Read-only user", Authorizations := ["Legacy4"] })],
    log := [],
    faults := fun _ => none }

/-- A recomputation of the authorization service that succeeds and leaves the store as it
is. -/
def noRecomputation (s : Store) : Store × Option GoError := (s, none)

/-! ## The access decision engine, as specified in section 4.3 -/

/-- Go map assignment `m[k] = v`. -/
def JMap.set (m : JMap) (k : String) (v : JSON) : JMap :=
  match m with
  | [] => [(k, v)]
  | (k1, v1) :: rest => if k1 = k then (k, v) :: rest else (k1, v1) :: JMap.set rest k v

/-- Modelled from the spec: resource control matching `find(type, identifier, controls)`
(section 4.1), a linear scan matching `Type` and `ResourceIdentifier` exactly; the helper
is not in the shown files. -/
def findResourceControl (type : ResourceControlType) (identifier : String) :
    List ResourceControl → Option ResourceControl
  | [] => none
  | resourceControl :: rest =>
    if resourceControl.Type_ = type ∧ resourceControl.ResourceIdentifier = identifier then
      some resourceControl
    else findResourceControl type identifier rest

/-- Modelled from the spec: the JSON form of the resource kind inside the ownership
metadata; the spec fixes no encoding, the kind's name is used. -/
def ResourceControlType.toJSON : ResourceControlType → JSON
  | ResourceControlType.ContainerResourceControl => JSON.str "container"
  | ResourceControlType.ServiceResourceControl => JSON.str "service"
  | ResourceControlType.TaskResourceControl => JSON.str "task"
  | ResourceControlType.VolumeResourceControl => JSON.str "volume"
  | ResourceControlType.StackResourceControl => JSON.str "stack"

/-- Modelled from the spec: the ownership metadata attached by decoration, the resolved
`ResourceControl` with the fields of section 3. -/
def ResourceControl.toJSON (resourceControl : ResourceControl) : JSON :=
  JSON.obj [("ID", JSON.num resourceControl.ID),
    ("ResourceIdentifier", JSON.str resourceControl.ResourceIdentifier),
    ("Type", resourceControl.Type_.toJSON),
    ("Public", JSON.bool resourceControl.Public),
    ("AdministratorsOnly", JSON.bool resourceControl.AdministratorsOnly),
    ("OwnerUserIDs", JSON.arr (resourceControl.OwnerUserIDs.map (fun id => JSON.num id))),
    ("OwnerTeamIDs", JSON.arr (resourceControl.OwnerTeamIDs.map (fun id => JSON.num id)))]

/-- Modelled from the spec: decoration (section 4.3), "attaching the resolved
`ResourceControl` as a side field on the resource representation (key name stable across
resource types)"; the spec does not name the key, "ResourceControl" is used. -/
def decorateObject (resourceObject : JMap) (resourceControl : ResourceControl) : JMap :=
  JMap.set resourceObject "ResourceControl" resourceControl.toJSON

/-- Modelled from the spec: `decide(resource, resourceControl, context)` with the decision
policy of section 4.3, rules 1 to 5 in that order; the function is not in the shown
files. -/
def decideAccess (resource : JMap) (resourceControl : Option ResourceControl)
    (context : restrictedDockerOperationContext) : JMap × Bool :=
  match resourceControl with
  | none => (resource, true)
  | some rc =>
    if context.isAdmin then (decorateObject resource rc, true)
    else if rc.Public then (decorateObject resource rc, true)
    else if rc.OwnerUserIDs.contains context.userID ||
        context.userTeamIDs.any (fun teamID => rc.OwnerTeamIDs.contains teamID) then
      (decorateObject resource rc, true)
    else (resource, false)

/-- Modelled from the spec: `applyResourceAccessControl(resource, identifier, context,
type)` (section 4.3) looks up the control by identifier of the given type, then calls
`decide`; the function is not in the shown files. -/
def applyResourceAccessControl (resourceObject : JMap) (resourceIdentifier : String)
    (context : restrictedDockerOperationContext) (resourceType : ResourceControlType) :
    JMap × Bool :=
  decideAccess resourceObject
    (findResourceControl resourceType resourceIdentifier context.resourceControls) context

/-- Modelled from the spec: `applyResourceAccessControlFromLabel(labels, resource,
labelKey, context, type)` (section 4.3): if `labels` is present and contains `labelKey`,
looks up the control by that label value under the given type, then calls `decide`; if
`labels` is absent or lacks the key, returns `(resource, false)`; the function is not in
the shown files. -/
def applyResourceAccessControlFromLabel (labelsObject : Option JMap) (resourceObject : JMap)
    (labelIdentifier : String) (context : restrictedDockerOperationContext)
    (resourceType : ResourceControlType) : JMap × Bool :=
  match labelsObject with
  | none => (resourceObject, false)
  | some labels =>
    match JMap.index labels labelIdentifier with
    | JSON.str labelValue =>
      decideAccess resourceObject
        (findResourceControl resourceType labelValue context.resourceControls) context
    | _ => (resourceObject, false)

/-- Modelled from the spec: the primary decoration of decorate-all mode (section 4.4), the
resource decorated with the control found for its identifier, if any; the function is not
in the shown files. -/
def decorateResourceWithAccessControl (resourceObject : JMap) (resourceIdentifier : String)
    (resourceControls : List ResourceControl) (resourceType : ResourceControlType) : JMap :=
  match findResourceControl resourceType resourceIdentifier resourceControls with
  | some resourceControl => decorateObject resourceObject resourceControl
  | none => resourceObject

/-- Modelled from the spec: the label-derived decoration of decorate-all mode
(section 4.4), the resource decorated with the control found for its label value, if any;
the function is not in the shown files. -/
def decorateResourceWithAccessControlFromLabel (labelsObject : Option JMap)
    (resourceObject : JMap) (labelIdentifier : String)
    (resourceControls : List ResourceControl) (resourceType : ResourceControlType) : JMap :=
  match labelsObject with
  | none => resourceObject
  | some labels =>
    match JMap.index labels labelIdentifier with
    | JSON.str labelValue =>
      match findResourceControl resourceType labelValue resourceControls with
      | some resourceControl => decorateObject resourceObject resourceControl
      | none => resourceObject
    | _ => resourceObject

/-- The access-control helpers behaving as specified in section 4.3. -/
def specAccessControl : accessControl :=
  { applyResourceAccessControl := applyResourceAccessControl,
    applyResourceAccessControlFromLabel := applyResourceAccessControlFromLabel,
    decorateResourceWithAccessControl := decorateResourceWithAccessControl,
    decorateResourceWithAccessControlFromLabel := decorateResourceWithAccessControlFromLabel }

/-- The control of the task scenario of section 8: service "svc-1" owned by user 42. -/
def serviceControl : ResourceControl :=
  { ID := 1, ResourceIdentifier := "svc-1",
    Type_ := ResourceControlType.ServiceResourceControl, Public := false,
    AdministratorsOnly := false, OwnerUserIDs := [42], OwnerTeamIDs := [] }

/-- The context of the task scenario of section 8: user 42, not an administrator, no
endpoint access. -/
def ownerContext : restrictedDockerOperationContext :=
  { isAdmin := false, endpointResourceAccess := false, userID := 42, userTeamIDs := [],
    resourceControls := [serviceControl] }

/-- The control of the service scenario of section 8: the public stack "alpha". -/
def stackControl : ResourceControl :=
  { ID := 2, ResourceIdentifier := "alpha",
    Type_ := ResourceControlType.StackResourceControl, Public := true,
    AdministratorsOnly := false, OwnerUserIDs := [], OwnerTeamIDs := [] }

/-- The context of the service scenario of section 8: user 7, not an administrator, no
endpoint access; the only control is the stack's. -/
def stackContext : restrictedDockerOperationContext :=
  { isAdmin := false, endpointResourceAccess := false, userID := 7, userTeamIDs := [],
    resourceControls := [stackControl] }

/-- The service of the service scenario of section 8, with the stack label at
Spec.Labels. -/
def alphaService (id : String) : JMap :=
  [("ID", JSON.str id),
    ("Spec", JSON.obj [("Labels",
      JSON.obj [("com.docker.stack.namespace", JSON.str "alpha")])])]

/-! ## Well-formed buckets and stores with a failing call -/

/-- The bucket is a key-value map holding each record under its own ID: the keys are
distinct and each key is the ID of the record stored under it. -/
def isBucket {α : Type} (idOf : α → Nat) (b : List (Nat × α)) : Prop :=
  (b.map Prod.fst).Nodup ∧ ∀ p ∈ b, idOf p.2 = p.1

/-- The store `legacyStore` in which the storage call number `n` fails with `err`. -/
def legacyStoreFailingAt (n : Nat) (err : GoError) : Store :=
  { legacyStore with faults := fun k => if k = n then some err else none }

/-- A store with three resource controls restricted to administrators. -/
def controlsStore : Store :=
  { resourceControls :=
      [(1, { ID := 1, ResourceIdentifier := "svc-1",
             Type_ := ResourceControlType.ServiceResourceControl, Public := false,
             AdministratorsOnly := true, OwnerUserIDs := [42], OwnerTeamIDs := [] }),
        (2, { ID := 2, ResourceIdentifier := "alpha",
              Type_ := ResourceControlType.StackResourceControl, Public := true,
              AdministratorsOnly := true, OwnerUserIDs := [], OwnerTeamIDs := [3] }),
        (5, { ID := 5, ResourceIdentifier := "vol-1",
              Type_ := ResourceControlType.VolumeResourceControl, Public := false,
              AdministratorsOnly := true, OwnerUserIDs := [], OwnerTeamIDs := [] })],
    users := [],
    roles := [],
    log := [],
    faults := fun _ => none }

/-! ## Lemmas on the list loops -/

theorem filterServiceListLoop_eq_listLoop {Resp : Type} (ru : responseutils Resp)
    (ac : accessControl) (context : restrictedDockerOperationContext) (xs acc : List JSON) :
    filterServiceListLoop ru ac context xs acc =
      listLoop serviceIdentifier errDockerServiceIdentifierNotFound
        (filterStep ac (extractServiceLabelsFromServiceListObject ru)
          serviceLabelForStackIdentifier context) xs acc := by
  induction xs generalizing acc with
  | nil => rfl
  | cons x rest ih =>
    cases x <;> simp only [filterServiceListLoop, listLoop]
    split <;> simp only [filterStep, filterDecision]
    split <;> simp_all
    split <;> simp_all

theorem filterTaskListLoop_eq_listLoop {Resp : Type} (ru : responseutils Resp)
    (ac : accessControl) (context : restrictedDockerOperationContext) (xs acc : List JSON) :
    filterTaskListLoop ru ac context xs acc =
      listLoop taskServiceIdentifier errDockerTaskServiceIdentifierNotFound
        (filterStep ac (extractTaskLabelsFromTaskListObject ru)
          taskLabelForStackIdentifier context) xs acc := by
  induction xs generalizing acc with
  | nil => rfl
  | cons x rest ih =>
    cases x <;> simp only [filterTaskListLoop, listLoop]
    split <;> simp only [filterStep, filterDecision]
    split <;> simp_all
    split <;> simp_all

theorem decorateServiceListLoop_eq_listLoop {Resp : Type} (ru : responseutils Resp)
    (ac : accessControl) (resourceControls : List ResourceControl) (xs acc : List JSON) :
    decorateServiceListLoop ru ac resourceControls xs acc =
      listLoop serviceIdentifier errDockerServiceIdentifierNotFound
        (fun m id => some (decorateBoth ru ac resourceControls m id)) xs acc := by
  induction xs generalizing acc with
  | nil => rfl
  | cons x rest ih =>
    cases x <;> simp only [decorateServiceListLoop, listLoop]
    split <;> simp_all [decorateBoth]

theorem listLoop_of_carries (key : String) (err : GoError)
    (step : JMap → String → Option JMap) (xs acc : List JSON)
    (h : ∀ x ∈ xs, carriesIdentifier key x) :
    listLoop key err step xs acc =
      Run.done (some (acc ++ xs.filterMap (contribution key step)), none) := by
  induction xs generalizing acc with
  | nil => simp [listLoop]
  | cons x rest ih =>
    obtain ⟨m, id, rfl, hid⟩ := h x (List.mem_cons_self _ _)
    have hrest : ∀ y ∈ rest, carriesIdentifier key y :=
      fun y hy => h y (List.mem_cons_of_mem _ hy)
    simp only [listLoop, hid, contribution, List.filterMap_cons]
    cases hs : step m id <;> simp [ih _ hrest]

theorem listLoop_carries_of_done (key : String) (err : GoError)
    (step : JMap → String → Option JMap) (xs acc ys : List JSON) (e : Option GoError)
    (h : listLoop key err step xs acc = Run.done (some ys, e)) :
    ∀ x ∈ xs, carriesIdentifier key x := by
  induction xs generalizing acc with
  | nil => simp
  | cons x rest ih =>
    cases x <;> simp only [listLoop] at h <;> try exact absurd h (by simp)
    rename_i m
    split at h
    · simp at h
    · rename_i id hid
      intro y hy
      rcases List.mem_cons.mp hy with rfl | hy
      · exact ⟨m, id, rfl, hid⟩
      · cases hs : step m id <;> rw [hs] at h
        · exact ih _ h y hy
        · exact ih _ h y hy
    · simp at h

theorem listLoop_of_lacks (key : String) (err : GoError)
    (step : JMap → String → Option JMap) (pre : List JSON) (bad : JSON) (post acc : List JSON)
    (hpre : ∀ x ∈ pre, carriesIdentifier key x) (hbad : lacksIdentifier key bad) :
    listLoop key err step (pre ++ bad :: post) acc = Run.done (none, some err) := by
  induction pre generalizing acc with
  | nil =>
    obtain ⟨m, rfl, hm⟩ := hbad
    simp [listLoop, hm]
  | cons x rest ih =>
    obtain ⟨m, id, rfl, hid⟩ := hpre x (List.mem_cons_self _ _)
    have hrest : ∀ y ∈ rest, carriesIdentifier key y :=
      fun y hy => hpre y (List.mem_cons_of_mem _ hy)
    simp only [List.cons_append, listLoop, hid]
    cases hs : step m id <;> simp [ih _ hrest]

theorem filterServiceList_eq {Resp : Type} (ru : responseutils Resp) (ac : accessControl)
    (context : restrictedDockerOperationContext) (xs : List JSON) :
    filterServiceList ru ac xs context =
      listLoop serviceIdentifier errDockerServiceIdentifierNotFound
        (filterStep ac (extractServiceLabelsFromServiceListObject ru)
          serviceLabelForStackIdentifier context) xs [] :=
  filterServiceListLoop_eq_listLoop ru ac context xs []

theorem filterTaskList_eq {Resp : Type} (ru : responseutils Resp) (ac : accessControl)
    (context : restrictedDockerOperationContext) (xs : List JSON) :
    filterTaskList ru ac xs context =
      listLoop taskServiceIdentifier errDockerTaskServiceIdentifierNotFound
        (filterStep ac (extractTaskLabelsFromTaskListObject ru)
          taskLabelForStackIdentifier context) xs [] :=
  filterTaskListLoop_eq_listLoop ru ac context xs []

theorem decorateServiceList_eq {Resp : Type} (ru : responseutils Resp) (ac : accessControl)
    (resourceControls : List ResourceControl) (xs : List JSON) :
    decorateServiceList ru ac xs resourceControls =
      listLoop serviceIdentifier errDockerServiceIdentifierNotFound
        (fun m id => some (decorateBoth ru ac resourceControls m id)) xs [] :=
  decorateServiceListLoop_eq_listLoop ru ac resourceControls xs []

theorem filterDecision_allows_iff (ac : accessControl) (extract : JMap → Option JMap)
    (labelKey : String) (context : restrictedDockerOperationContext) (m : JMap) (id : String) :
    (filterDecision ac extract labelKey context m id).2 = true ↔
      (ac.applyResourceAccessControl m id context
          ResourceControlType.ServiceResourceControl).2 = true ∨
      ((ac.applyResourceAccessControl m id context
          ResourceControlType.ServiceResourceControl).2 = false ∧
        (ac.applyResourceAccessControlFromLabel
          (extract (ac.applyResourceAccessControl m id context
            ResourceControlType.ServiceResourceControl).1)
          (ac.applyResourceAccessControl m id context
            ResourceControlType.ServiceResourceControl).1
          labelKey context ResourceControlType.StackResourceControl).2 = true) := by
  unfold filterDecision
  cases h : (ac.applyResourceAccessControl m id context
    ResourceControlType.ServiceResourceControl).2 <;> simp [h]

theorem filterDecision_of_primary (ac : accessControl) (extract : JMap → Option JMap)
    (labelKey : String) (context : restrictedDockerOperationContext) (m : JMap) (id : String)
    (h : (ac.applyResourceAccessControl m id context
      ResourceControlType.ServiceResourceControl).2 = true) :
    filterDecision ac extract labelKey context m id =
      ac.applyResourceAccessControl m id context
        ResourceControlType.ServiceResourceControl := by
  unfold filterDecision
  simp [h]

theorem reduceOption_map_contribution (key : String) (step : JMap → String → Option JMap)
    (xs : List JSON) :
    (xs.map (contribution key step)).reduceOption = xs.filterMap (contribution key step) := by
  simp [List.reduceOption, List.filterMap_map]

/-- Positional description of the output of a loop run on resources that all carry their
identifier: the output is the concatenation, in input order, of what each position
contributes. -/
theorem listLoop_positions (key : String) (err : GoError)
    (step : JMap → String → Option JMap) (xs : List JSON)
    (h : ∀ x ∈ xs, carriesIdentifier key x) :
    ∃ kept : List (Option JSON), kept.length = xs.length ∧
      listLoop key err step xs [] = Run.done (some kept.reduceOption, none) ∧
      ∀ (i : Nat) (m : JMap) (id : String), xs[i]? = some (JSON.obj m) →
        JMap.index m key = JSON.str id → kept[i]? = some ((step m id).map JSON.obj) := by
  refine ⟨xs.map (contribution key step), by simp, ?_, ?_⟩
  · rw [listLoop_of_carries key err step xs [] h, reduceOption_map_contribution]
    simp
  · intro i m id hi hid
    simp [List.getElem?_map, hi, contribution, hid]

theorem filterMap_sublist_map {α β : Type} (g : α → Option β) (xs : List α) :
    List.Sublist ((xs.filterMap g).map some) (xs.map g) := by
  induction xs with
  | nil => simp
  | cons x rest ih =>
    cases hx : g x with
    | none =>
      simp only [List.filterMap_cons, hx, List.map_cons]
      exact List.Sublist.cons _ ih
    | some y =>
      simp only [List.filterMap_cons, hx, List.map_cons]
      exact List.Sublist.cons₂ _ ih

/-- The output of a successful loop run is a subsequence of its input. -/
theorem listLoop_subsequence (key : String) (err : GoError)
    (step : JMap → String → Option JMap) (xs ys : List JSON)
    (h : listLoop key err step xs [] = Run.done (some ys, none)) :
    ys.length ≤ xs.length ∧
    ∃ f : ℕ → ℕ, StrictMono f ∧ ∀ j, j < ys.length →
      ∃ (m : JMap) (id : String) (m1 : JMap), xs[f j]? = some (JSON.obj m) ∧
        JMap.index m key = JSON.str id ∧ step m id = some m1 ∧
        ys[j]? = some (JSON.obj m1) := by
  have hc := listLoop_carries_of_done key err step xs [] ys none h
  rw [listLoop_of_carries key err step xs [] hc] at h
  have hys : ys = xs.filterMap (contribution key step) := by
    simp at h
    exact h.symm
  subst hys
  refine ⟨List.length_filterMap_le _ _, ?_⟩
  obtain ⟨f, hf⟩ := List.sublist_iff_exists_orderEmbedding_get?_eq.mp
    (filterMap_sublist_map (contribution key step) xs)
  refine ⟨f, f.strictMono, ?_⟩
  intro j hj
  have hfj := hf j
  simp only [List.get?_eq_getElem?, List.getElem?_map] at hfj
  rw [List.getElem?_eq_getElem hj] at hfj
  simp only [Option.map_some'] at hfj
  cases hx : xs[f j]? with
  | none => rw [hx] at hfj; simp at hfj
  | some x =>
    rw [hx] at hfj
    simp only [Option.map_some', Option.some.injEq] at hfj
    have hxmem : x ∈ xs := List.getElem?_mem hx
    obtain ⟨m, id, rfl, hid⟩ := hc x hxmem
    simp only [contribution, hid] at hfj
    cases hs : step m id with
    | none => rw [hs] at hfj; simp at hfj
    | some m1 =>
      rw [hs] at hfj
      simp only [Option.map_some', Option.some.injEq] at hfj
      exact ⟨m, id, m1, rfl, hid, hs, by rw [List.getElem?_eq_getElem hj, hfj]⟩

/-- A loop whose step always yields an object maps the input position by position. -/
theorem listLoop_of_total_step (key : String) (err : GoError) (g : JMap → String → JMap)
    (xs : List JSON) (h : ∀ x ∈ xs, carriesIdentifier key x) :
    ∃ ys : List JSON, listLoop key err (fun m id => some (g m id)) xs [] =
        Run.done (some ys, none) ∧ ys.length = xs.length ∧
      ∀ (i : Nat) (m : JMap) (id : String), xs[i]? = some (JSON.obj m) →
        JMap.index m key = JSON.str id → ys[i]? = some (JSON.obj (g m id)) := by
  obtain ⟨kept, hlen, hrun, hpos⟩ := listLoop_positions key err (fun m id => some (g m id)) xs h
  have hall : ∀ o ∈ kept, ∃ y, o = some y := by
    intro o ho
    obtain ⟨i, hi, rfl⟩ := List.getElem_of_mem ho
    have hix : i < xs.length := hlen ▸ hi
    obtain ⟨m, id, hm, hid⟩ := h xs[i] (List.getElem_mem _)
    have := hpos i m id (by rw [List.getElem?_eq_getElem hix, hm]) hid
    rw [List.getElem?_eq_getElem hi] at this
    simp at this
    exact ⟨_, this⟩
  have hkept : kept = kept.reduceOption.map some := by
    clear hlen hrun hpos
    induction kept with
    | nil => rfl
    | cons o rest ih =>
      obtain ⟨y, rfl⟩ := hall _ (List.mem_cons_self _ _)
      rw [List.reduceOption_cons_of_some, List.map_cons,
        ← ih (fun o ho => hall o (List.mem_cons_of_mem _ ho))]
  refine ⟨kept.reduceOption, hrun, ?_, ?_⟩
  · rw [← hlen]
    conv_rhs => rw [hkept]
    simp
  · intro i m id hi hid
    have := hpos i m id hi hid
    rw [hkept, List.getElem?_map] at this
    cases hk : kept.reduceOption[i]? with
    | none => rw [hk] at this; simp at this
    | some y =>
      rw [hk] at this
      simp at this
      rw [this]

/-! ## Filter mode -/

/-- What filter mode appends for one resource object, by cases on the two decisions. -/
theorem filterStep_eq_ite (ac : accessControl) (extract : JMap → Option JMap)
    (labelKey : String) (context : restrictedDockerOperationContext) (m : JMap) (id : String) :
    filterStep ac extract labelKey context m id =
      if (ac.applyResourceAccessControl m id context
          ResourceControlType.ServiceResourceControl).2 = true then
        some (ac.applyResourceAccessControl m id context
          ResourceControlType.ServiceResourceControl).1
      else if (ac.applyResourceAccessControlFromLabel
          (extract (ac.applyResourceAccessControl m id context
            ResourceControlType.ServiceResourceControl).1)
          (ac.applyResourceAccessControl m id context
            ResourceControlType.ServiceResourceControl).1
          labelKey context ResourceControlType.StackResourceControl).2 = true then
        some (ac.applyResourceAccessControlFromLabel
          (extract (ac.applyResourceAccessControl m id context
            ResourceControlType.ServiceResourceControl).1)
          (ac.applyResourceAccessControl m id context
            ResourceControlType.ServiceResourceControl).1
          labelKey context ResourceControlType.StackResourceControl).1
      else none := by
  unfold filterStep filterDecision
  cases hP : (ac.applyResourceAccessControl m id context
    ResourceControlType.ServiceResourceControl).2
  · simp [hP]
  · simp [hP]

/-- C1: filter mode keeps a resource iff one of the two decisions allows it.  For every
list of resource objects that all carry their identifier (a string, as the helpers take
it) and for any given decision helpers, the output of `filterServiceList` (identifier
"ID") and of `filterTaskList` (identifier "ServiceID") is the concatenation, in input
order, of what each position contributes: `kept` has one entry per input position and the
output is its entries that are present.  The entry of position `i` is present iff the
primary decision (Service control, by the identifier) allows, or it denies and the
label-derived decision (Stack control, key "com.docker.stack.namespace") allows; it is
then the object returned by the granting decision on the input element `i`.  A position
denied by both contributes nothing. -/
theorem filter_mode_keeps_iff_a_decision_allows {Resp : Type} (ru : responseutils Resp)
    (ac : accessControl) (context : restrictedDockerOperationContext)
    (services tasks : List JSON)
    (hs : ∀ x ∈ services, carriesIdentifier "ID" x)
    (ht : ∀ x ∈ tasks, carriesIdentifier "ServiceID" x) :
    (∃ kept : List (Option JSON), kept.length = services.length ∧
      filterServiceList ru ac services context = Run.done (some kept.reduceOption, none) ∧
      ∀ (i : Nat) (m : JMap) (id : String), services[i]? = some (JSON.obj m) →
        JMap.index m "ID" = JSON.str id →
        ∃ o : Option JSON, kept[i]? = some o ∧
          (o.isSome = true ↔
            (ac.applyResourceAccessControl m id context
              ResourceControlType.ServiceResourceControl).2 = true ∨
            ((ac.applyResourceAccessControl m id context
              ResourceControlType.ServiceResourceControl).2 = false ∧
             (ac.applyResourceAccessControlFromLabel
               (extractServiceLabelsFromServiceListObject ru
                 (ac.applyResourceAccessControl m id context
                   ResourceControlType.ServiceResourceControl).1)
               (ac.applyResourceAccessControl m id context
                 ResourceControlType.ServiceResourceControl).1
               "com.docker.stack.namespace" context
               ResourceControlType.StackResourceControl).2 = true)) ∧
          o =
            if (ac.applyResourceAccessControl m id context
              ResourceControlType.ServiceResourceControl).2 = true then
              some (JSON.obj (ac.applyResourceAccessControl m id context
              ResourceControlType.ServiceResourceControl).1)
            else if (ac.applyResourceAccessControlFromLabel
               (extractServiceLabelsFromServiceListObject ru
                 (ac.applyResourceAccessControl m id context
                   ResourceControlType.ServiceResourceControl).1)
               (ac.applyResourceAccessControl m id context
                 ResourceControlType.ServiceResourceControl).1
               "com.docker.stack.namespace" context
               ResourceControlType.StackResourceControl).2 = true then
              some (JSON.obj (ac.applyResourceAccessControlFromLabel
               (extractServiceLabelsFromServiceListObject ru
                 (ac.applyResourceAccessControl m id context
                   ResourceControlType.ServiceResourceControl).1)
               (ac.applyResourceAccessControl m id context
                 ResourceControlType.ServiceResourceControl).1
               "com.docker.stack.namespace" context
               ResourceControlType.StackResourceControl).1)
            else none) ∧
    (∃ kept : List (Option JSON), kept.length = tasks.length ∧
      filterTaskList ru ac tasks context = Run.done (some kept.reduceOption, none) ∧
      ∀ (i : Nat) (m : JMap) (id : String), tasks[i]? = some (JSON.obj m) →
        JMap.index m "ServiceID" = JSON.str id →
        ∃ o : Option JSON, kept[i]? = some o ∧
          (o.isSome = true ↔
            (ac.applyResourceAccessControl m id context
              ResourceControlType.ServiceResourceControl).2 = true ∨
            ((ac.applyResourceAccessControl m id context
              ResourceControlType.ServiceResourceControl).2 = false ∧
             (ac.applyResourceAccessControlFromLabel
               (extractTaskLabelsFromTaskListObject ru
                 (ac.applyResourceAccessControl m id context
                   ResourceControlType.ServiceResourceControl).1)
               (ac.applyResourceAccessControl m id context
                 ResourceControlType.ServiceResourceControl).1
               "com.docker.stack.namespace" context
               ResourceControlType.StackResourceControl).2 = true)) ∧
          o =
            if (ac.applyResourceAccessControl m id context
              ResourceControlType.ServiceResourceControl).2 = true then
              some (JSON.obj (ac.applyResourceAccessControl m id context
              ResourceControlType.ServiceResourceControl).1)
            else if (ac.applyResourceAccessControlFromLabel
               (extractTaskLabelsFromTaskListObject ru
                 (ac.applyResourceAccessControl m id context
                   ResourceControlType.ServiceResourceControl).1)
               (ac.applyResourceAccessControl m id context
                 ResourceControlType.ServiceResourceControl).1
               "com.docker.stack.namespace" context
               ResourceControlType.StackResourceControl).2 = true then
              some (JSON.obj (ac.applyResourceAccessControlFromLabel
               (extractTaskLabelsFromTaskListObject ru
                 (ac.applyResourceAccessControl m id context
                   ResourceControlType.ServiceResourceControl).1)
               (ac.applyResourceAccessControl m id context
                 ResourceControlType.ServiceResourceControl).1
               "com.docker.stack.namespace" context
               ResourceControlType.StackResourceControl).1)
            else none) := by
  constructor
  · obtain ⟨kept, hlen, hrun, hpos⟩ := listLoop_positions serviceIdentifier
      errDockerServiceIdentifierNotFound
      (filterStep ac (extractServiceLabelsFromServiceListObject ru)
        serviceLabelForStackIdentifier context) services hs
    refine ⟨kept, hlen, by rw [filterServiceList_eq]; exact hrun, ?_⟩
    intro i m id hi hid
    refine ⟨_, hpos i m id hi hid, ?_, ?_⟩
    · rw [← filterDecision_allows_iff ac (extractServiceLabelsFromServiceListObject ru)
        "com.docker.stack.namespace" context m id]
      simp only [filterStep, serviceLabelForStackIdentifier]
      split <;> simp_all
    · rw [filterStep_eq_ite]
      simp only [serviceLabelForStackIdentifier]
      split
      · rfl
      · split <;> rfl
  · obtain ⟨kept, hlen, hrun, hpos⟩ := listLoop_positions taskServiceIdentifier
      errDockerTaskServiceIdentifierNotFound
      (filterStep ac (extractTaskLabelsFromTaskListObject ru)
        taskLabelForStackIdentifier context) tasks ht
    refine ⟨kept, hlen, by rw [filterTaskList_eq]; exact hrun, ?_⟩
    intro i m id hi hid
    refine ⟨_, hpos i m id hi hid, ?_, ?_⟩
    · rw [← filterDecision_allows_iff ac (extractTaskLabelsFromTaskListObject ru)
        "com.docker.stack.namespace" context m id]
      simp only [filterStep, taskLabelForStackIdentifier]
      split <;> simp_all
    · rw [filterStep_eq_ite]
      simp only [taskLabelForStackIdentifier]
      split
      · rfl
      · split <;> rfl

/-- Witness of C1: two services, "a" (allowed by the primary decision) and "b" (denied by
both), and two tasks of service "a": the entry of position 0 is the decorated service "a",
the entry of position 1 is absent. -/
theorem filter_mode_keeps_iff_a_decision_allows_witness :
    ∃ kept : List (Option JSON),
      kept.length = 2 ∧
      filterServiceList bodyResponseutils (sampleAccessControl ["a"] [])
        [JSON.obj [("ID", JSON.str "a")], JSON.obj [("ID", JSON.str "b")]] sampleContext =
          Run.done (some kept.reduceOption, none) ∧
      kept[0]? = some (some (JSON.obj [("ID", JSON.str "a"), ("Portainer", JSON.str "a")])) ∧
      kept[1]? = some none :=
  have h := (filter_mode_keeps_iff_a_decision_allows bodyResponseutils
      (sampleAccessControl ["a"] [])
      sampleContext [JSON.obj [("ID", JSON.str "a")], JSON.obj [("ID", JSON.str "b")]]
      [JSON.obj [("ServiceID", JSON.str "a")], JSON.obj [("ServiceID", JSON.str "a")]]
      (by
        intro x hx
        simp only [List.mem_cons, List.mem_singleton, List.not_mem_nil, or_false] at hx
        rcases hx with rfl | rfl
        · exact ⟨_, _, rfl, rfl⟩
        · exact ⟨_, _, rfl, rfl⟩)
      (by
        intro x hx
        simp only [List.mem_cons, List.mem_singleton, List.not_mem_nil, or_false] at hx
        rcases hx with rfl | rfl
        · exact ⟨_, _, rfl, rfl⟩
        · exact ⟨_, _, rfl, rfl⟩)).1
  h.imp (fun _ hk =>
    ⟨hk.1, hk.2.1,
      (hk.2.2 0 [("ID", JSON.str "a")] "a" rfl rfl).elim
        (fun _ ho => ho.1.trans (congrArg some (ho.2.2.trans rfl))),
      (hk.2.2 1 [("ID", JSON.str "b")] "b" rfl rfl).elim
        (fun _ ho => ho.1.trans (congrArg some (ho.2.2.trans rfl)))⟩)

/-- C2: filter mode is a true, stable filter.  Whenever `filterServiceList` (resp.
`filterTaskList`) succeeds, the output is no longer than the input and there is a strictly
increasing map `f` from output positions to input positions such that the output element
at `j` is the object returned by the granting decision on the input element at `f j`:
resources are only removed, never reordered or duplicated. -/
theorem filter_mode_is_a_stable_filter {Resp : Type} (ru : responseutils Resp)
    (ac : accessControl) (context : restrictedDockerOperationContext)
    (services filteredServices tasks filteredTasks : List JSON)
    (hs : filterServiceList ru ac services context = Run.done (some filteredServices, none))
    (ht : filterTaskList ru ac tasks context = Run.done (some filteredTasks, none)) :
    (filteredServices.length ≤ services.length ∧
      ∃ f : ℕ → ℕ, StrictMono f ∧ ∀ j, j < filteredServices.length →
        ∃ (m : JMap) (id : String), services[f j]? = some (JSON.obj m) ∧
          JMap.index m "ID" = JSON.str id ∧
          (filterDecision ac (extractServiceLabelsFromServiceListObject ru)
            "com.docker.stack.namespace" context m id).2 = true ∧
          filteredServices[j]? = some (JSON.obj
            (filterDecision ac (extractServiceLabelsFromServiceListObject ru)
              "com.docker.stack.namespace" context m id).1)) ∧
    (filteredTasks.length ≤ tasks.length ∧
      ∃ f : ℕ → ℕ, StrictMono f ∧ ∀ j, j < filteredTasks.length →
        ∃ (m : JMap) (id : String), tasks[f j]? = some (JSON.obj m) ∧
          JMap.index m "ServiceID" = JSON.str id ∧
          (filterDecision ac (extractTaskLabelsFromTaskListObject ru)
            "com.docker.stack.namespace" context m id).2 = true ∧
          filteredTasks[j]? = some (JSON.obj
            (filterDecision ac (extractTaskLabelsFromTaskListObject ru)
              "com.docker.stack.namespace" context m id).1)) := by
  rw [filterServiceList_eq] at hs
  rw [filterTaskList_eq] at ht
  obtain ⟨hlen, f, hf, hpos⟩ := listLoop_subsequence _ _ _ _ _ hs
  obtain ⟨tlen, g, hg, tpos⟩ := listLoop_subsequence _ _ _ _ _ ht
  refine ⟨⟨hlen, f, hf, ?_⟩, ⟨tlen, g, hg, ?_⟩⟩
  · intro j hj
    obtain ⟨m, id, m1, hx, hid, hstep, hy⟩ := hpos j hj
    refine ⟨m, id, hx, hid, ?_⟩
    simp only [filterStep, serviceLabelForStackIdentifier] at hstep
    split at hstep
    · rename_i h
      simp only [Option.some.injEq] at hstep
      exact ⟨h, by rw [hy, hstep]⟩
    · simp at hstep
  · intro j hj
    obtain ⟨m, id, m1, hx, hid, hstep, hy⟩ := tpos j hj
    refine ⟨m, id, hx, hid, ?_⟩
    simp only [filterStep, taskLabelForStackIdentifier] at hstep
    split at hstep
    · rename_i h
      simp only [Option.some.injEq] at hstep
      exact ⟨h, by rw [hy, hstep]⟩
    · simp at hstep

/-- Witness of C2: of the services "a", "b", "c" the policy keeps "a" and "c", in that
order; of two tasks it keeps the second. -/
theorem filter_mode_is_a_stable_filter_witness :
    [JSON.obj [("ID", JSON.str "a"), ("Portainer", JSON.str "a")],
      JSON.obj [("ID", JSON.str "c"), ("Portainer", JSON.str "c")]].length ≤
      [JSON.obj [("ID", JSON.str "a")], JSON.obj [("ID", JSON.str "b")],
        JSON.obj [("ID", JSON.str "c")]].length :=
  (filter_mode_is_a_stable_filter bodyResponseutils (sampleAccessControl ["a", "c"] [])
    sampleContext
    [JSON.obj [("ID", JSON.str "a")], JSON.obj [("ID", JSON.str "b")],
      JSON.obj [("ID", JSON.str "c")]]
    [JSON.obj [("ID", JSON.str "a"), ("Portainer", JSON.str "a")],
      JSON.obj [("ID", JSON.str "c"), ("Portainer", JSON.str "c")]]
    [JSON.obj [("ServiceID", JSON.str "b")], JSON.obj [("ServiceID", JSON.str "c")]]
    [JSON.obj [("ServiceID", JSON.str "c"), ("Portainer", JSON.str "c")]]
    rfl rfl).1.1

/-! ## Inspect -/

/-- The outcome of `serviceInspectOperation` on a parsed object with a string "ID". -/
theorem serviceInspectOperation_of_parsed {Resp : Type} (ru : responseutils Resp)
    (ac : accessControl) (response : Resp) (executor : operationExecutor)
    (responseObject : JMap) (serviceID : String)
    (hparse : ru.GetResponseAsJSONOBject response = Except.ok responseObject)
    (hid : JMap.index responseObject "ID" = JSON.str serviceID) :
    serviceInspectOperation ru ac response executor =
      if (ac.applyResourceAccessControl responseObject serviceID executor.operationContext
          ResourceControlType.ServiceResourceControl).2 = true then
        Run.done ⟨[ResponseCall.RewriteResponse response
            (JSON.obj (ac.applyResourceAccessControl responseObject serviceID
              executor.operationContext ResourceControlType.ServiceResourceControl).1) 200],
          ru.RewriteResponse response
            (JSON.obj (ac.applyResourceAccessControl responseObject serviceID
              executor.operationContext ResourceControlType.ServiceResourceControl).1) 200⟩
      else if (ac.applyResourceAccessControlFromLabel
          (extractServiceLabelsFromServiceInspectObject ru
            (ac.applyResourceAccessControl responseObject serviceID executor.operationContext
              ResourceControlType.ServiceResourceControl).1)
          (ac.applyResourceAccessControl responseObject serviceID executor.operationContext
            ResourceControlType.ServiceResourceControl).1
          "com.docker.stack.namespace" executor.operationContext
          ResourceControlType.StackResourceControl).2 = true then
        Run.done ⟨[ResponseCall.RewriteResponse response
            (JSON.obj (ac.applyResourceAccessControlFromLabel
              (extractServiceLabelsFromServiceInspectObject ru
                (ac.applyResourceAccessControl responseObject serviceID
                  executor.operationContext ResourceControlType.ServiceResourceControl).1)
              (ac.applyResourceAccessControl responseObject serviceID
                executor.operationContext ResourceControlType.ServiceResourceControl).1
              "com.docker.stack.namespace" executor.operationContext
              ResourceControlType.StackResourceControl).1) 200],
          ru.RewriteResponse response
            (JSON.obj (ac.applyResourceAccessControlFromLabel
              (extractServiceLabelsFromServiceInspectObject ru
                (ac.applyResourceAccessControl responseObject serviceID
                  executor.operationContext ResourceControlType.ServiceResourceControl).1)
              (ac.applyResourceAccessControl responseObject serviceID
                executor.operationContext ResourceControlType.ServiceResourceControl).1
              "com.docker.stack.namespace" executor.operationContext
              ResourceControlType.StackResourceControl).1) 200⟩
      else
        Run.done ⟨[ResponseCall.RewriteAccessDeniedResponse response],
          ru.RewriteAccessDeniedResponse response⟩ := by
  have hid1 : JMap.index responseObject serviceIdentifier = JSON.str serviceID := hid
  simp only [serviceInspectOperation, hparse, hid1, serviceLabelForStackIdentifier, StatusOK]

/-- C3: `serviceInspectOperation` has exactly three outcomes on a parsed response object
that carries "ID" (a string): if the primary decision by the service ID (Service control)
allows, the response is rewritten with the primary decision's object and status 200;
otherwise, if the label-derived decision (labels at Spec.Labels, key
"com.docker.stack.namespace", Stack control) allows, it is rewritten with that decision's
object and status 200; otherwise it is rewritten as the access-denied response. -/
theorem serviceInspectOperation_three_outcomes {Resp : Type} (ru : responseutils Resp)
    (ac : accessControl) (response : Resp) (executor : operationExecutor)
    (responseObject : JMap) (serviceID : String)
    (hparse : ru.GetResponseAsJSONOBject response = Except.ok responseObject)
    (hid : JMap.index responseObject "ID" = JSON.str serviceID) :
    serviceInspectOperation ru ac response executor =
      if (ac.applyResourceAccessControl responseObject serviceID executor.operationContext
          ResourceControlType.ServiceResourceControl).2 = true then
        Run.done ⟨[ResponseCall.RewriteResponse response
            (JSON.obj (ac.applyResourceAccessControl responseObject serviceID
              executor.operationContext ResourceControlType.ServiceResourceControl).1) 200],
          ru.RewriteResponse response
            (JSON.obj (ac.applyResourceAccessControl responseObject serviceID
              executor.operationContext ResourceControlType.ServiceResourceControl).1) 200⟩
      else if (ac.applyResourceAccessControlFromLabel
          (extractServiceLabelsFromServiceInspectObject ru
            (ac.applyResourceAccessControl responseObject serviceID executor.operationContext
              ResourceControlType.ServiceResourceControl).1)
          (ac.applyResourceAccessControl responseObject serviceID executor.operationContext
            ResourceControlType.ServiceResourceControl).1
          "com.docker.stack.namespace" executor.operationContext
          ResourceControlType.StackResourceControl).2 = true then
        Run.done ⟨[ResponseCall.RewriteResponse response
            (JSON.obj (ac.applyResourceAccessControlFromLabel
              (extractServiceLabelsFromServiceInspectObject ru
                (ac.applyResourceAccessControl responseObject serviceID
                  executor.operationContext ResourceControlType.ServiceResourceControl).1)
              (ac.applyResourceAccessControl responseObject serviceID
                executor.operationContext ResourceControlType.ServiceResourceControl).1
              "com.docker.stack.namespace" executor.operationContext
              ResourceControlType.StackResourceControl).1) 200],
          ru.RewriteResponse response
            (JSON.obj (ac.applyResourceAccessControlFromLabel
              (extractServiceLabelsFromServiceInspectObject ru
                (ac.applyResourceAccessControl responseObject serviceID
                  executor.operationContext ResourceControlType.ServiceResourceControl).1)
              (ac.applyResourceAccessControl responseObject serviceID
                executor.operationContext ResourceControlType.ServiceResourceControl).1
              "com.docker.stack.namespace" executor.operationContext
              ResourceControlType.StackResourceControl).1) 200⟩
      else
        Run.done ⟨[ResponseCall.RewriteAccessDeniedResponse response],
          ru.RewriteAccessDeniedResponse response⟩ := by
  have hid1 : JMap.index responseObject serviceIdentifier = JSON.str serviceID := hid
  unfold serviceInspectOperation
  rw [hparse]
  simp only [hid1, serviceLabelForStackIdentifier, StatusOK]

/-- Witness of C3: a service "b" that the primary decision denies and whose stack label
"alpha" is allowed. -/
theorem serviceInspectOperation_three_outcomes_witness :
    serviceInspectOperation bodyResponseutils (sampleAccessControl ["a"] ["alpha"])
      (JSON.obj [("ID", JSON.str "b"), ("Spec", JSON.obj [("Labels",
        JSON.obj [("com.docker.stack.namespace", JSON.str "alpha")])])])
      ⟨sampleContext⟩ =
    Run.done ⟨[ResponseCall.RewriteResponse
        (JSON.obj [("ID", JSON.str "b"), ("Spec", JSON.obj [("Labels",
          JSON.obj [("com.docker.stack.namespace", JSON.str "alpha")])])])
        (JSON.obj [("ID", JSON.str "b"), ("Spec", JSON.obj [("Labels",
          JSON.obj [("com.docker.stack.namespace", JSON.str "alpha")])]),
          ("Portainer", JSON.str "alpha")]) 200], none⟩ :=
  (serviceInspectOperation_three_outcomes bodyResponseutils
    (sampleAccessControl ["a"] ["alpha"])
    (JSON.obj [("ID", JSON.str "b"), ("Spec", JSON.obj [("Labels",
      JSON.obj [("com.docker.stack.namespace", JSON.str "alpha")])])])
    ⟨sampleContext⟩
    [("ID", JSON.str "b"), ("Spec", JSON.obj [("Labels",
      JSON.obj [("com.docker.stack.namespace", JSON.str "alpha")])])]
    "b" rfl rfl).trans rfl

/-- C4: the object-denial path never leaks the resource.  For two parsed service objects
(both carrying "ID") behind the same response handle and the same context, if the primary
and the label-derived decisions deny for each, `serviceInspectOperation` has the same
outcome for both: the single call `RewriteAccessDeniedResponse(response)`, which receives
nothing derived from the parsed object; `RewriteResponse` is not called. -/
theorem object_denial_never_leaks {Resp : Type} (ru1 ru2 : responseutils Resp)
    (ac : accessControl) (response : Resp) (executor : operationExecutor)
    (o1 o2 : JMap) (id1 id2 : String)
    (hparse1 : ru1.GetResponseAsJSONOBject response = Except.ok o1)
    (hparse2 : ru2.GetResponseAsJSONOBject response = Except.ok o2)
    (hid1 : JMap.index o1 "ID" = JSON.str id1)
    (hid2 : JMap.index o2 "ID" = JSON.str id2)
    (hprimary1 : (ac.applyResourceAccessControl o1 id1 executor.operationContext
      ResourceControlType.ServiceResourceControl).2 = false)
    (hlabel1 : (ac.applyResourceAccessControlFromLabel
      (extractServiceLabelsFromServiceInspectObject ru1
        (ac.applyResourceAccessControl o1 id1 executor.operationContext
          ResourceControlType.ServiceResourceControl).1)
      (ac.applyResourceAccessControl o1 id1 executor.operationContext
        ResourceControlType.ServiceResourceControl).1
      "com.docker.stack.namespace" executor.operationContext
      ResourceControlType.StackResourceControl).2 = false)
    (hprimary2 : (ac.applyResourceAccessControl o2 id2 executor.operationContext
      ResourceControlType.ServiceResourceControl).2 = false)
    (hlabel2 : (ac.applyResourceAccessControlFromLabel
      (extractServiceLabelsFromServiceInspectObject ru2
        (ac.applyResourceAccessControl o2 id2 executor.operationContext
          ResourceControlType.ServiceResourceControl).1)
      (ac.applyResourceAccessControl o2 id2 executor.operationContext
        ResourceControlType.ServiceResourceControl).1
      "com.docker.stack.namespace" executor.operationContext
      ResourceControlType.StackResourceControl).2 = false)
    (hdenied : ru1.RewriteAccessDeniedResponse = ru2.RewriteAccessDeniedResponse) :
    serviceInspectOperation ru1 ac response executor =
        Run.done ⟨[ResponseCall.RewriteAccessDeniedResponse response],
          ru1.RewriteAccessDeniedResponse response⟩ ∧
      serviceInspectOperation ru2 ac response executor =
        Run.done ⟨[ResponseCall.RewriteAccessDeniedResponse response],
          ru1.RewriteAccessDeniedResponse response⟩ := by
  constructor
  · rw [serviceInspectOperation_of_parsed ru1 ac response executor o1 id1 hparse1 hid1]
    simp [hprimary1, hlabel1]
  · rw [serviceInspectOperation_of_parsed ru2 ac response executor o2 id2 hparse2 hid2]
    simp [hprimary2, hlabel2, hdenied]

/-- Witness of C4: two different services, both denied, behind the same handle. -/
theorem object_denial_never_leaks_witness :
    serviceInspectOperation
        (fixedBodyResponseutils (JSON.obj [("ID", JSON.str "b"), ("Name", JSON.str "db")]))
        (sampleAccessControl ["a"] ["alpha"]) () ⟨sampleContext⟩ =
      Run.done ⟨[ResponseCall.RewriteAccessDeniedResponse ()], none⟩ ∧
    serviceInspectOperation
        (fixedBodyResponseutils (JSON.obj [("ID", JSON.str "c"), ("Spec", JSON.obj
          [("Labels", JSON.obj [("com.docker.stack.namespace", JSON.str "beta")])])]))
        (sampleAccessControl ["a"] ["alpha"]) () ⟨sampleContext⟩ =
      Run.done ⟨[ResponseCall.RewriteAccessDeniedResponse ()], none⟩ :=
  object_denial_never_leaks
    (fixedBodyResponseutils (JSON.obj [("ID", JSON.str "b"), ("Name", JSON.str "db")]))
    (fixedBodyResponseutils (JSON.obj [("ID", JSON.str "c"), ("Spec", JSON.obj
      [("Labels", JSON.obj [("com.docker.stack.namespace", JSON.str "beta")])])]))
    (sampleAccessControl ["a"] ["alpha"]) () ⟨sampleContext⟩
    [("ID", JSON.str "b"), ("Name", JSON.str "db")]
    [("ID", JSON.str "c"), ("Spec", JSON.obj
      [("Labels", JSON.obj [("com.docker.stack.namespace", JSON.str "beta")])])]
    "b" "c" rfl rfl rfl rfl rfl rfl rfl rfl rfl

/-! ## Missing identifiers -/

/-- In a list of resource objects with an element lacking its identifier, the first such
element is preceded only by elements that carry theirs. -/
theorem exists_first_lacking (key : String) (xs : List JSON)
    (h : ∀ x ∈ xs, isResourceObject key x) (hbad : ∃ x ∈ xs, lacksIdentifier key x) :
    ∃ (pre : List JSON) (bad : JSON) (post : List JSON), xs = pre ++ bad :: post ∧
      (∀ x ∈ pre, carriesIdentifier key x) ∧ lacksIdentifier key bad := by
  induction xs with
  | nil => simp at hbad
  | cons x rest ih =>
    by_cases hx : lacksIdentifier key x
    · exact ⟨[], x, rest, rfl, by simp, hx⟩
    · have hcx : carriesIdentifier key x := by
        rcases h x (List.mem_cons_self _ _) with hc | hl
        · exact hc
        · exact absurd hl hx
      obtain ⟨y, hy, hly⟩ := hbad
      have hyrest : y ∈ rest := by
        rcases List.mem_cons.mp hy with rfl | hy
        · exact absurd hly hx
        · exact hy
      obtain ⟨pre, bad, post, hxs, hpre, hb⟩ :=
        ih (fun z hz => h z (List.mem_cons_of_mem _ hz)) ⟨y, hyrest, hly⟩
      refine ⟨x :: pre, bad, post, by rw [hxs]; rfl, ?_, hb⟩
      intro z hz
      rcases List.mem_cons.mp hz with rfl | hz
      · exact hcx
      · exact hpre z hz

/-- C5: one bad element fails the batch.  For every list of resource objects (JSON objects
whose identifier is a string or absent) in which at least one element lacks its identifier
field, wherever it sits, `filterServiceList` and `decorateServiceList` return
`(nil, "Docker service identifier not found")` and `filterTaskList` returns
`(nil, "Docker task service identifier not found")`: no list is returned, not even the
elements processed before the bad one. -/
theorem one_bad_element_fails_the_batch {Resp : Type} (ru : responseutils Resp)
    (ac : accessControl) (context : restrictedDockerOperationContext)
    (resourceControls : List ResourceControl) (services tasks : List JSON)
    (hs : ∀ x ∈ services, isResourceObject "ID" x)
    (hsbad : ∃ x ∈ services, lacksIdentifier "ID" x)
    (ht : ∀ x ∈ tasks, isResourceObject "ServiceID" x)
    (htbad : ∃ x ∈ tasks, lacksIdentifier "ServiceID" x) :
    filterServiceList ru ac services context =
        Run.done (none, some "Docker service identifier not found") ∧
      decorateServiceList ru ac services resourceControls =
        Run.done (none, some "Docker service identifier not found") ∧
      filterTaskList ru ac tasks context =
        Run.done (none, some "Docker task service identifier not found") := by
  obtain ⟨pre, bad, post, rfl, hpre, hb⟩ := exists_first_lacking "ID" services hs hsbad
  obtain ⟨tpre, tbad, tpost, rfl, htpre, htb⟩ :=
    exists_first_lacking "ServiceID" tasks ht htbad
  refine ⟨?_, ?_, ?_⟩
  · rw [filterServiceList_eq]
    exact listLoop_of_lacks serviceIdentifier errDockerServiceIdentifierNotFound _ pre bad
      post [] hpre hb
  · rw [decorateServiceList_eq]
    exact listLoop_of_lacks serviceIdentifier errDockerServiceIdentifierNotFound _ pre bad
      post [] hpre hb
  · rw [filterTaskList_eq]
    exact listLoop_of_lacks taskServiceIdentifier errDockerTaskServiceIdentifierNotFound _
      tpre tbad tpost [] htpre htb

/-- Witness of C5: the bad element sits last, after an element the policy would keep. -/
theorem one_bad_element_fails_the_batch_witness :
    filterServiceList bodyResponseutils (sampleAccessControl ["a"] [])
        [JSON.obj [("ID", JSON.str "a")], JSON.obj [("Name", JSON.str "web")]]
        sampleContext =
        Run.done (none, some "Docker service identifier not found") ∧
      decorateServiceList bodyResponseutils (sampleAccessControl ["a"] [])
        [JSON.obj [("ID", JSON.str "a")], JSON.obj [("Name", JSON.str "web")]] [] =
        Run.done (none, some "Docker service identifier not found") ∧
      filterTaskList bodyResponseutils (sampleAccessControl ["a"] [])
        [JSON.obj [("ServiceID", JSON.str "a")], JSON.obj [("ID", JSON.str "t2")]]
        sampleContext =
        Run.done (none, some "Docker task service identifier not found") :=
  one_bad_element_fails_the_batch bodyResponseutils (sampleAccessControl ["a"] [])
    sampleContext []
    [JSON.obj [("ID", JSON.str "a")], JSON.obj [("Name", JSON.str "web")]]
    [JSON.obj [("ServiceID", JSON.str "a")], JSON.obj [("ID", JSON.str "t2")]]
    (by
      intro x hx
      simp only [List.mem_cons, List.mem_singleton, List.not_mem_nil, or_false] at hx
      rcases hx with rfl | rfl
      · exact Or.inl ⟨_, _, rfl, rfl⟩
      · exact Or.inr ⟨_, rfl, rfl⟩)
    ⟨_, List.mem_cons_of_mem _ (List.mem_cons_self _ _), _, rfl, rfl⟩
    (by
      intro x hx
      simp only [List.mem_cons, List.mem_singleton, List.not_mem_nil, or_false] at hx
      rcases hx with rfl | rfl
      · exact Or.inl ⟨_, _, rfl, rfl⟩
      · exact Or.inr ⟨_, rfl, rfl⟩)
    ⟨_, List.mem_cons_of_mem _ (List.mem_cons_self _ _), _, rfl, rfl⟩

theorem listLoop_of_resource_objects (key : String) (err : GoError)
    (step : JMap → String → Option JMap) (xs : List JSON)
    (h : ∀ x ∈ xs, isResourceObject key x) (hbad : ∃ x ∈ xs, lacksIdentifier key x) :
    listLoop key err step xs [] = Run.done (none, some err) := by
  obtain ⟨pre, bad, post, rfl, hpre, hb⟩ := exists_first_lacking key xs h hbad
  exact listLoop_of_lacks key err step pre bad post [] hpre hb

theorem listLoop_never_nil_nil (key : String) (err : GoError)
    (step : JMap → String → Option JMap) (xs acc : List JSON) :
    listLoop key err step xs acc ≠ Run.done (none, none) := by
  induction xs generalizing acc with
  | nil => simp [listLoop]
  | cons x rest ih =>
    cases x <;> simp only [listLoop] <;> try simp
    split
    · simp
    · split
      · exact ih _
      · exact ih _
    · simp

/-- C6 (as amended): a missing identifier short-circuits `serviceListOperation` in both
modes, and `taskListOperation` in filter mode only.  When some service of the parsed list
lacks "ID", `serviceListOperation` returns "Docker service identifier not found" without
rewriting the response, whatever the context.  When some task lacks "ServiceID",
`taskListOperation` returns "Docker task service identifier not found" without rewriting
the response if `isAdmin` and `endpointResourceAccess` are both false; if one of them is
true it checks no identifier and rewrites the response with the parsed array and
status 200. -/
theorem missing_identifier_short_circuits {Resp : Type} (ru : responseutils Resp)
    (ac : accessControl) (serviceResponse taskResponse : Resp) (executor : operationExecutor)
    (services tasks : List JSON)
    (hsparse : ru.GetResponseAsJSONArray serviceResponse = Except.ok services)
    (htparse : ru.GetResponseAsJSONArray taskResponse = Except.ok tasks)
    (hs : ∀ x ∈ services, isResourceObject "ID" x)
    (hsbad : ∃ x ∈ services, lacksIdentifier "ID" x)
    (ht : ∀ x ∈ tasks, isResourceObject "ServiceID" x)
    (htbad : ∃ x ∈ tasks, lacksIdentifier "ServiceID" x) :
    serviceListOperation ru ac serviceResponse executor =
        Run.done ⟨[], some "Docker service identifier not found"⟩ ∧
      taskListOperation ru ac taskResponse executor =
        if executor.operationContext.isAdmin = true ∨
            executor.operationContext.endpointResourceAccess = true then
          Run.done ⟨[ResponseCall.RewriteResponse taskResponse (JSON.arr tasks) 200],
            ru.RewriteResponse taskResponse (JSON.arr tasks) 200⟩
        else
          Run.done ⟨[], some "Docker task service identifier not found"⟩ := by
  have hf := listLoop_of_resource_objects serviceIdentifier
    errDockerServiceIdentifierNotFound
    (filterStep ac (extractServiceLabelsFromServiceListObject ru)
      serviceLabelForStackIdentifier executor.operationContext) services hs hsbad
  have hd := listLoop_of_resource_objects serviceIdentifier
    errDockerServiceIdentifierNotFound
    (fun m id => some (decorateBoth ru ac executor.operationContext.resourceControls m id))
    services hs hsbad
  have hft := listLoop_of_resource_objects taskServiceIdentifier
    errDockerTaskServiceIdentifierNotFound
    (filterStep ac (extractTaskLabelsFromTaskListObject ru)
      taskLabelForStackIdentifier executor.operationContext) tasks ht htbad
  rw [← filterServiceList_eq] at hf
  rw [← decorateServiceList_eq] at hd
  rw [← filterTaskList_eq] at hft
  constructor
  · unfold serviceListOperation
    rw [hsparse]
    cases hadmin : executor.operationContext.isAdmin <;>
      cases hera : executor.operationContext.endpointResourceAccess <;>
      simp [hf, hd, errDockerServiceIdentifierNotFound]
  · unfold taskListOperation
    rw [htparse]
    cases hadmin : executor.operationContext.isAdmin <;>
      cases hera : executor.operationContext.endpointResourceAccess <;>
      simp [hft, errDockerTaskServiceIdentifierNotFound, StatusOK]

/-- Witness of C6 (as amended): an unprivileged context, one service without "ID" and one
task without "ServiceID". -/
theorem missing_identifier_short_circuits_witness :
    serviceListOperation bodyResponseutils (sampleAccessControl ["a"] [])
        (JSON.arr [JSON.obj [("Name", JSON.str "web")]]) ⟨sampleContext⟩ =
        Run.done ⟨[], some "Docker service identifier not found"⟩ ∧
      taskListOperation bodyResponseutils (sampleAccessControl ["a"] [])
        (JSON.arr [JSON.obj [("ID", JSON.str "t1")]]) ⟨sampleContext⟩ =
        Run.done ⟨[], some "Docker task service identifier not found"⟩ :=
  missing_identifier_short_circuits bodyResponseutils (sampleAccessControl ["a"] [])
    (JSON.arr [JSON.obj [("Name", JSON.str "web")]])
    (JSON.arr [JSON.obj [("ID", JSON.str "t1")]]) ⟨sampleContext⟩
    [JSON.obj [("Name", JSON.str "web")]] [JSON.obj [("ID", JSON.str "t1")]] rfl rfl
    (by
      intro x hx
      rw [List.mem_singleton] at hx
      subst hx
      exact Or.inr ⟨_, rfl, rfl⟩)
    ⟨_, List.mem_cons_self _ _, _, rfl, rfl⟩
    (by
      intro x hx
      rw [List.mem_singleton] at hx
      subst hx
      exact Or.inr ⟨_, rfl, rfl⟩)
    ⟨_, List.mem_cons_self _ _, _, rfl, rfl⟩

/-- Counterexample to C6 as stated: with `isAdmin = true` and a parsed task list whose only
task has no "ServiceID" field, `taskListOperation` does not fail: it rewrites the response
with the parsed array and returns no error. -/
theorem taskListOperation_admin_missing_identifier :
    adminContext.isAdmin = true ∧
    lacksIdentifier "ServiceID" (JSON.obj [("ID", JSON.str "t1")]) ∧
    taskListOperation bodyResponseutils (sampleAccessControl [] [])
        (JSON.arr [JSON.obj [("ID", JSON.str "t1")]]) ⟨adminContext⟩ =
      Run.done ⟨[ResponseCall.RewriteResponse (JSON.arr [JSON.obj [("ID", JSON.str "t1")]])
        (JSON.arr [JSON.obj [("ID", JSON.str "t1")]]) 200], none⟩ ∧
    taskListOperation bodyResponseutils (sampleAccessControl [] [])
        (JSON.arr [JSON.obj [("ID", JSON.str "t1")]]) ⟨adminContext⟩ ≠
      Run.done ⟨[], some "Docker task service identifier not found"⟩ := by
  refine ⟨rfl, ⟨_, rfl, rfl⟩, rfl, ?_⟩
  intro h
  have h1 : taskListOperation bodyResponseutils (sampleAccessControl [] [])
        (JSON.arr [JSON.obj [("ID", JSON.str "t1")]]) ⟨adminContext⟩ =
      Run.done ⟨[ResponseCall.RewriteResponse (JSON.arr [JSON.obj [("ID", JSON.str "t1")]])
        (JSON.arr [JSON.obj [("ID", JSON.str "t1")]]) 200], none⟩ := rfl
  rw [h1] at h
  simp at h

/-! ## Decorate-all mode -/

/-- The output of a successful `decorateServiceList`, position by position. -/
theorem decorateServiceList_of_done {Resp : Type} (ru : responseutils Resp)
    (ac : accessControl) (resourceControls : List ResourceControl) (xs ys : List JSON)
    (h : decorateServiceList ru ac xs resourceControls = Run.done (some ys, none)) :
    ys.length = xs.length ∧
      ∀ i, i < xs.length → ∃ (m : JMap) (id : String), xs[i]? = some (JSON.obj m) ∧
        JMap.index m "ID" = JSON.str id ∧
        ys[i]? = some (JSON.obj (decorateBoth ru ac resourceControls m id)) := by
  rw [decorateServiceList_eq] at h
  have hc := listLoop_carries_of_done _ _ _ xs [] ys none h
  obtain ⟨zs, hrun, hlen, hpos⟩ := listLoop_of_total_step serviceIdentifier
    errDockerServiceIdentifierNotFound (decorateBoth ru ac resourceControls) xs hc
  rw [hrun] at h
  have hzs : zs = ys := by
    simp at h
    exact h
  subst hzs
  refine ⟨hlen, ?_⟩
  intro i hi
  obtain ⟨m, id, hm, hid⟩ := hc xs[i] (List.getElem_mem _)
  have hx : xs[i]? = some (JSON.obj m) := by rw [List.getElem?_eq_getElem hi, hm]
  exact ⟨m, id, hx, hid, hpos i m id hx hid⟩

/-- C7: a privileged principal never loses a resource.  With `isAdmin = true` or
`endpointResourceAccess = true`, `taskListOperation` does not call `filterTaskList`: it
rewrites the response with exactly the parsed array and status 200.  `serviceListOperation`
takes the `decorateServiceList` branch: replacing the two filter helpers changes nothing,
and whenever it succeeds it has made the single call `RewriteResponse` with status 200 on
an array of the same length as the parsed one, whose element `i` is the decoration of the
input element `i`. -/
theorem privileged_principal_never_loses_a_resource {Resp : Type} (ru : responseutils Resp)
    (ac : accessControl) (response : Resp) (executor : operationExecutor)
    (responseArray : List JSON)
    (hpriv : executor.operationContext.isAdmin = true ∨
      executor.operationContext.endpointResourceAccess = true)
    (hparse : ru.GetResponseAsJSONArray response = Except.ok responseArray) :
    taskListOperation ru ac response executor =
        Run.done ⟨[ResponseCall.RewriteResponse response (JSON.arr responseArray) 200],
          ru.RewriteResponse response (JSON.arr responseArray) 200⟩ ∧
      (∀ f g, serviceListOperation ru
          { ac with applyResourceAccessControl := f,
                    applyResourceAccessControlFromLabel := g } response executor =
        serviceListOperation ru ac response executor) ∧
      ∀ r : OperationResult Resp, serviceListOperation ru ac response executor = Run.done r →
        r.err = none →
        ∃ decorated : List JSON,
          decorateServiceList ru ac responseArray executor.operationContext.resourceControls =
            Run.done (some decorated, none) ∧
          r.calls = [ResponseCall.RewriteResponse response (JSON.arr decorated) 200] ∧
          decorated.length = responseArray.length ∧
          ∀ i, i < responseArray.length →
            ∃ (m : JMap) (id : String), responseArray[i]? = some (JSON.obj m) ∧
              JMap.index m "ID" = JSON.str id ∧
              decorated[i]? = some (JSON.obj
                (decorateBoth ru ac executor.operationContext.resourceControls m id)) := by
  have hcond : (executor.operationContext.isAdmin ||
      executor.operationContext.endpointResourceAccess) = true := by
    rcases hpriv with h | h <;> simp [h]
  have hcondT : (!executor.operationContext.isAdmin &&
      !executor.operationContext.endpointResourceAccess) = false := by
    rcases hpriv with h | h <;> simp [h]
  refine ⟨?_, ?_, ?_⟩
  · unfold taskListOperation
    rw [hparse]
    simp only [hcondT, StatusOK]
    rfl
  · intro f g
    unfold serviceListOperation
    rw [hparse]
    simp only [hcond, if_true]
    rw [decorateServiceList_eq, decorateServiceList_eq]
    rfl
  · intro r hr herr
    unfold serviceListOperation at hr
    rw [hparse] at hr
    simp only [hcond, if_true] at hr
    cases hd : decorateServiceList ru ac responseArray
        executor.operationContext.resourceControls with
    | panic => rw [hd] at hr; simp at hr
    | done res =>
      rw [hd] at hr
      obtain ⟨l, e⟩ := res
      cases e with
      | some e =>
        simp only [Run.done.injEq] at hr
        rw [← hr] at herr
        simp at herr
      | none =>
        cases l with
        | none =>
          rw [decorateServiceList_eq] at hd
          exact absurd hd (listLoop_never_nil_nil _ _ _ _ _)
        | some ys =>
          simp only [Run.done.injEq] at hr
          obtain ⟨hlen, hpos⟩ := decorateServiceList_of_done ru ac _ responseArray ys hd
          exact ⟨ys, rfl, by rw [← hr]; rfl, hlen, hpos⟩

/-- Witness of C7: an administrator lists two services and two tasks. -/
theorem privileged_principal_never_loses_a_resource_witness :
    taskListOperation bodyResponseutils (sampleAccessControl ["a"] [])
        (JSON.arr [JSON.obj [("ID", JSON.str "a")], JSON.obj [("ID", JSON.str "b")]])
        ⟨adminContext⟩ =
      Run.done ⟨[ResponseCall.RewriteResponse
          (JSON.arr [JSON.obj [("ID", JSON.str "a")], JSON.obj [("ID", JSON.str "b")]])
          (JSON.arr [JSON.obj [("ID", JSON.str "a")], JSON.obj [("ID", JSON.str "b")]]) 200],
        none⟩ ∧
    ∃ decorated : List JSON,
      decorateServiceList bodyResponseutils (sampleAccessControl ["a"] [])
          [JSON.obj [("ID", JSON.str "a")], JSON.obj [("ID", JSON.str "b")]]
          adminContext.resourceControls = Run.done (some decorated, none) ∧
      decorated.length = 2 :=
  have h := privileged_principal_never_loses_a_resource bodyResponseutils
    (sampleAccessControl ["a"] [])
    (JSON.arr [JSON.obj [("ID", JSON.str "a")], JSON.obj [("ID", JSON.str "b")]])
    ⟨adminContext⟩
    [JSON.obj [("ID", JSON.str "a")], JSON.obj [("ID", JSON.str "b")]]
    (Or.inl rfl) rfl
  ⟨h.1, (h.2.2 _ rfl rfl).imp (fun _ hd => ⟨hd.1, hd.2.2.1⟩)⟩

/-- C8: decorate-all mode layers both decorations on every service.  For every list of
service objects that all carry "ID", `decorateServiceList` returns a list of the same
length whose element `i` is `decorateResourceWithAccessControlFromLabel(labels, p,
"com.docker.stack.namespace", controls, Stack)` where `p` is
`decorateResourceWithAccessControl(x, ID of x, controls, Service)` and `labels` is read
from `p` at Spec.Labels. -/
theorem decorate_all_layers_both_decorations {Resp : Type} (ru : responseutils Resp)
    (ac : accessControl) (resourceControls : List ResourceControl) (serviceData : List JSON)
    (h : ∀ x ∈ serviceData, carriesIdentifier "ID" x) :
    ∃ decorated : List JSON,
      decorateServiceList ru ac serviceData resourceControls =
        Run.done (some decorated, none) ∧
      decorated.length = serviceData.length ∧
      ∀ (i : Nat) (m : JMap) (id : String), serviceData[i]? = some (JSON.obj m) →
        JMap.index m "ID" = JSON.str id →
        decorated[i]? = some (JSON.obj
          (ac.decorateResourceWithAccessControlFromLabel
            (extractServiceLabelsFromServiceListObject ru
              (ac.decorateResourceWithAccessControl m id resourceControls
                ResourceControlType.ServiceResourceControl))
            (ac.decorateResourceWithAccessControl m id resourceControls
              ResourceControlType.ServiceResourceControl)
            "com.docker.stack.namespace" resourceControls
            ResourceControlType.StackResourceControl)) := by
  obtain ⟨ys, hrun, hlen, hpos⟩ := listLoop_of_total_step serviceIdentifier
    errDockerServiceIdentifierNotFound (decorateBoth ru ac resourceControls) serviceData h
  refine ⟨ys, ?_, hlen, ?_⟩
  · rw [decorateServiceList_eq]
    exact hrun
  · intro i m id hi hid
    exact hpos i m id hi hid

/-- Witness of C8: service "a" has a control of its own and belongs to stack "alpha";
service "b" has neither. -/
theorem decorate_all_layers_both_decorations_witness :
    ∃ decorated : List JSON,
      decorateServiceList bodyResponseutils (sampleAccessControl ["a"] ["alpha"])
          [JSON.obj [("ID", JSON.str "a"), ("Spec", JSON.obj [("Labels",
              JSON.obj [("com.docker.stack.namespace", JSON.str "alpha")])])],
            JSON.obj [("ID", JSON.str "b")]] [] = Run.done (some decorated, none) ∧
      decorated.length = 2 :=
  (decorate_all_layers_both_decorations bodyResponseutils
    (sampleAccessControl ["a"] ["alpha"]) []
    [JSON.obj [("ID", JSON.str "a"), ("Spec", JSON.obj [("Labels",
        JSON.obj [("com.docker.stack.namespace", JSON.str "alpha")])])],
      JSON.obj [("ID", JSON.str "b")]]
    (by
      intro x hx
      simp only [List.mem_cons, List.mem_singleton, List.not_mem_nil, or_false] at hx
      rcases hx with rfl | rfl
      · exact ⟨_, _, rfl, rfl⟩
      · exact ⟨_, _, rfl, rfl⟩)).imp (fun _ hd => ⟨hd.1, hd.2.1⟩)

/-! ## Label fallback -/

/-- C9: the label fallback is consulted only after a primary denial.  In
`filterServiceList`, `filterTaskList` and `serviceInspectOperation`, for every resource
that the primary decision allows, the element kept (resp. the body rewritten) is exactly
the object returned by the primary decision, and it stays the same when the label helper
`applyResourceAccessControlFromLabel` and the reading of the labels (`GetJSONObject`) are
replaced by any others (`ac'`, `ru'`). -/
theorem label_fallback_only_after_primary_denial {Resp : Type} (ru ru' : responseutils Resp)
    (ac ac' : accessControl) (context : restrictedDockerOperationContext)
    (services tasks : List JSON)
    (hsame : ac'.applyResourceAccessControl = ac.applyResourceAccessControl)
    (hs : ∀ x ∈ services, carriesIdentifier "ID" x)
    (ht : ∀ x ∈ tasks, carriesIdentifier "ServiceID" x) :
    (∃ kept kept' : List (Option JSON),
      kept.length = services.length ∧ kept'.length = services.length ∧
      filterServiceList ru ac services context = Run.done (some kept.reduceOption, none) ∧
      filterServiceList ru' ac' services context = Run.done (some kept'.reduceOption, none) ∧
      ∀ (i : Nat) (m : JMap) (id : String), services[i]? = some (JSON.obj m) →
        JMap.index m "ID" = JSON.str id →
        (ac.applyResourceAccessControl m id context
          ResourceControlType.ServiceResourceControl).2 = true →
        kept[i]? = some (some (JSON.obj (ac.applyResourceAccessControl m id context
          ResourceControlType.ServiceResourceControl).1)) ∧
        kept'[i]? = kept[i]?) ∧
    (∃ kept kept' : List (Option JSON),
      kept.length = tasks.length ∧ kept'.length = tasks.length ∧
      filterTaskList ru ac tasks context = Run.done (some kept.reduceOption, none) ∧
      filterTaskList ru' ac' tasks context = Run.done (some kept'.reduceOption, none) ∧
      ∀ (i : Nat) (m : JMap) (id : String), tasks[i]? = some (JSON.obj m) →
        JMap.index m "ServiceID" = JSON.str id →
        (ac.applyResourceAccessControl m id context
          ResourceControlType.ServiceResourceControl).2 = true →
        kept[i]? = some (some (JSON.obj (ac.applyResourceAccessControl m id context
          ResourceControlType.ServiceResourceControl).1)) ∧
        kept'[i]? = kept[i]?) ∧
    (∀ (response : Resp) (executor : operationExecutor) (o : JMap) (id : String),
      ru.GetResponseAsJSONOBject response = Except.ok o →
      ru'.GetResponseAsJSONOBject response = Except.ok o →
      ru'.RewriteResponse = ru.RewriteResponse →
      JMap.index o "ID" = JSON.str id →
      (ac.applyResourceAccessControl o id executor.operationContext
        ResourceControlType.ServiceResourceControl).2 = true →
      serviceInspectOperation ru ac response executor =
        Run.done ⟨[ResponseCall.RewriteResponse response
            (JSON.obj (ac.applyResourceAccessControl o id executor.operationContext
              ResourceControlType.ServiceResourceControl).1) 200],
          ru.RewriteResponse response
            (JSON.obj (ac.applyResourceAccessControl o id executor.operationContext
              ResourceControlType.ServiceResourceControl).1) 200⟩ ∧
      serviceInspectOperation ru' ac' response executor =
        serviceInspectOperation ru ac response executor) := by
  have key : ∀ (extract extract' : JMap → Option JMap) (labelKey : String) (m : JMap)
      (id : String),
      (ac.applyResourceAccessControl m id context
        ResourceControlType.ServiceResourceControl).2 = true →
      filterStep ac extract labelKey context m id =
          some (ac.applyResourceAccessControl m id context
            ResourceControlType.ServiceResourceControl).1 ∧
        filterStep ac' extract' labelKey context m id =
          some (ac.applyResourceAccessControl m id context
            ResourceControlType.ServiceResourceControl).1 := by
    intro extract extract' labelKey m id h
    have h' : (ac'.applyResourceAccessControl m id context
        ResourceControlType.ServiceResourceControl).2 = true := by rw [hsame]; exact h
    constructor
    · simp only [filterStep, filterDecision_of_primary ac extract labelKey context m id h, h,
        if_true]
    · simp only [filterStep, filterDecision_of_primary ac' extract' labelKey context m id h',
        h', if_true]
      rw [hsame]
  refine ⟨?_, ?_, ?_⟩
  · obtain ⟨kept, hlen, hrun, hpos⟩ := listLoop_positions serviceIdentifier
      errDockerServiceIdentifierNotFound
      (filterStep ac (extractServiceLabelsFromServiceListObject ru)
        serviceLabelForStackIdentifier context) services hs
    obtain ⟨kept', hlen', hrun', hpos'⟩ := listLoop_positions serviceIdentifier
      errDockerServiceIdentifierNotFound
      (filterStep ac' (extractServiceLabelsFromServiceListObject ru')
        serviceLabelForStackIdentifier context) services hs
    refine ⟨kept, kept', hlen, hlen', by rw [filterServiceList_eq]; exact hrun,
      by rw [filterServiceList_eq]; exact hrun', ?_⟩
    intro i m id hi hid hallow
    have hk := key (extractServiceLabelsFromServiceListObject ru)
      (extractServiceLabelsFromServiceListObject ru') serviceLabelForStackIdentifier m id
      hallow
    have h1 := hpos i m id hi hid
    have h2 := hpos' i m id hi hid
    rw [hk.1] at h1
    rw [hk.2] at h2
    exact ⟨h1, h2.trans h1.symm⟩
  · obtain ⟨kept, hlen, hrun, hpos⟩ := listLoop_positions taskServiceIdentifier
      errDockerTaskServiceIdentifierNotFound
      (filterStep ac (extractTaskLabelsFromTaskListObject ru)
        taskLabelForStackIdentifier context) tasks ht
    obtain ⟨kept', hlen', hrun', hpos'⟩ := listLoop_positions taskServiceIdentifier
      errDockerTaskServiceIdentifierNotFound
      (filterStep ac' (extractTaskLabelsFromTaskListObject ru')
        taskLabelForStackIdentifier context) tasks ht
    refine ⟨kept, kept', hlen, hlen', by rw [filterTaskList_eq]; exact hrun,
      by rw [filterTaskList_eq]; exact hrun', ?_⟩
    intro i m id hi hid hallow
    have hk := key (extractTaskLabelsFromTaskListObject ru)
      (extractTaskLabelsFromTaskListObject ru') taskLabelForStackIdentifier m id hallow
    have h1 := hpos i m id hi hid
    have h2 := hpos' i m id hi hid
    rw [hk.1] at h1
    rw [hk.2] at h2
    exact ⟨h1, h2.trans h1.symm⟩
  · intro response executor o id hparse hparse' hrewrite hid hallow
    have hallow' : (ac'.applyResourceAccessControl o id executor.operationContext
        ResourceControlType.ServiceResourceControl).2 = true := by rw [hsame]; exact hallow
    have h1 := serviceInspectOperation_of_parsed ru ac response executor o id hparse hid
    have h2 := serviceInspectOperation_of_parsed ru' ac' response executor o id hparse' hid
    simp only [hallow, if_true] at h1
    simp only [hallow', if_true] at h2
    refine ⟨h1, ?_⟩
    rw [h1, h2, hsame, hrewrite]

/-- Witness of C9: service "a" is allowed by the primary decision; the two policies differ
in the stacks their label helper allows. -/
theorem label_fallback_only_after_primary_denial_witness :
    ∃ kept kept' : List (Option JSON),
      kept.length = 1 ∧ kept'.length = 1 ∧
      filterServiceList bodyResponseutils (sampleAccessControl ["a"] [])
          [JSON.obj [("ID", JSON.str "a")]] sampleContext =
        Run.done (some kept.reduceOption, none) ∧
      filterServiceList bodyResponseutils (sampleAccessControl ["a"] ["alpha"])
          [JSON.obj [("ID", JSON.str "a")]] sampleContext =
        Run.done (some kept'.reduceOption, none) :=
  (label_fallback_only_after_primary_denial bodyResponseutils bodyResponseutils
    (sampleAccessControl ["a"] []) (sampleAccessControl ["a"] ["alpha"]) sampleContext
    [JSON.obj [("ID", JSON.str "a")]] [JSON.obj [("ServiceID", JSON.str "a")]] rfl
    (by
      intro x hx
      rw [List.mem_singleton] at hx
      subst hx
      exact ⟨_, _, rfl, rfl⟩)
    (by
      intro x hx
      rw [List.mem_singleton] at hx
      subst hx
      exact ⟨_, _, rfl, rfl⟩)).1.imp
    (fun _ h => h.imp (fun _ h1 => ⟨h1.1, h1.2.1, h1.2.2.1, h1.2.2.2.1⟩))

/-! ## Migration to DB version 22: roles -/

/-- C10 (code defect): run on a store holding the four built-in roles under the keys 1 to
4, `updateUsersAndRolesToDBVersion22` completes without error but reads
`Role(RoleID(1))` four times and writes each result back under key 1: role 1 ends with the
Read-Only User defaults and the roles 2, 3 and 4 keep their legacy authorizations. -/
theorem updateUsersAndRolesToDBVersion22_rewrites_only_role_one :
    (updateUsersAndRolesToDBVersion22 sampleDefaults noRecomputation legacyStore).2 = none ∧
    (updateUsersAndRolesToDBVersion22 sampleDefaults noRecomputation legacyStore).1.roles =
      [(1, { ID := 1, Name := "Endpoint administrator", Authorizations := ["ReadOnlyUser"] }),
        (2, { ID := 2, Name := "Helpdesk", Authorizations := ["Legacy2"] }),
        (3, { ID := 3, Name := "Standard user", Authorizations := ["Legacy3"] }),
        (4, { ID := 4, Name := "Read-only user", Authorizations := ["Legacy4"] })] ∧
    (updateUsersAndRolesToDBVersion22 sampleDefaults noRecomputation legacyStore).1.log =
      [StorageCall.Users,
        StorageCall.UpdateUser 1
          { ID := 1, Username := "admin", Role := 1,
            PortainerAuthorizations := ["PortainerDefault"] },
        StorageCall.Role 1,
        StorageCall.UpdateRole 1
          { ID := 1, Name := "Endpoint administrator",
            Authorizations := ["EndpointAdministrator"] },
        StorageCall.Role 1,
        StorageCall.UpdateRole 1
          { ID := 1, Name := "Endpoint administrator", Authorizations := ["HelpDesk"] },
        StorageCall.Role 1,
        StorageCall.UpdateRole 1
          { ID := 1, Name := "Endpoint administrator", Authorizations := ["StandardUser"] },
        StorageCall.Role 1,
        StorageCall.UpdateRole 1
          { ID := 1, Name := "Endpoint administrator", Authorizations := ["ReadOnlyUser"] }] :=
  ⟨rfl, rfl, rfl⟩

/-! ## Inspect: structural failure -/

/-- C14: `serviceInspectOperation` fails with `errDockerServiceIdentifierNotFound` exactly
when the parsed response object has no "ID" field.  On a parsed object, the outcome "no
rewriting call made, error `Docker service identifier not found` returned" occurs iff the
"ID" field is absent; it is the same for all decision helpers (none is consulted), and
neither `RewriteResponse` nor `RewriteAccessDeniedResponse` is invoked on it.  When the
rewriting functions do not themselves return that error, the operation returns it iff
"ID" is absent. -/
theorem serviceInspectOperation_identifier_not_found {Resp : Type} (ru : responseutils Resp)
    (ac : accessControl) (response : Resp) (executor : operationExecutor)
    (responseObject : JMap)
    (hparse : ru.GetResponseAsJSONOBject response = Except.ok responseObject) :
    (serviceInspectOperation ru ac response executor =
        Run.done ⟨[], some "Docker service identifier not found"⟩ ↔
      JMap.index responseObject "ID" = JSON.null) ∧
    (JMap.index responseObject "ID" = JSON.null →
      ∀ ac' : accessControl, serviceInspectOperation ru ac' response executor =
        Run.done ⟨[], some "Docker service identifier not found"⟩) ∧
    ((∀ body status, ru.RewriteResponse response body status ≠
        some "Docker service identifier not found") →
      ru.RewriteAccessDeniedResponse response ≠ some "Docker service identifier not found" →
      ∀ r : OperationResult Resp, serviceInspectOperation ru ac response executor = Run.done r →
        (r.err = some "Docker service identifier not found" ↔
          JMap.index responseObject "ID" = JSON.null)) := by
  have hnull : ∀ ac' : accessControl, JMap.index responseObject "ID" = JSON.null →
      serviceInspectOperation ru ac' response executor =
        Run.done ⟨[], some "Docker service identifier not found"⟩ := by
    intro ac' h
    have h1 : JMap.index responseObject serviceIdentifier = JSON.null := h
    unfold serviceInspectOperation
    rw [hparse]
    simp only [h1, errDockerServiceIdentifierNotFound]
  refine ⟨⟨?_, hnull ac⟩, fun h ac' => hnull ac' h, ?_⟩
  · intro h
    cases hid : JMap.index responseObject "ID" with
    | null => rfl
    | str id =>
      rw [serviceInspectOperation_of_parsed ru ac response executor responseObject id hparse
        hid] at h
      split at h
      · simp at h
      · split at h <;> simp at h
    | bool b =>
      have h1 : JMap.index responseObject serviceIdentifier = JSON.bool b := hid
      unfold serviceInspectOperation at h
      rw [hparse] at h
      simp [h1] at h
    | num n =>
      have h1 : JMap.index responseObject serviceIdentifier = JSON.num n := hid
      unfold serviceInspectOperation at h
      rw [hparse] at h
      simp [h1] at h
    | arr xs =>
      have h1 : JMap.index responseObject serviceIdentifier = JSON.arr xs := hid
      unfold serviceInspectOperation at h
      rw [hparse] at h
      simp [h1] at h
    | obj kvs =>
      have h1 : JMap.index responseObject serviceIdentifier = JSON.obj kvs := hid
      unfold serviceInspectOperation at h
      rw [hparse] at h
      simp [h1] at h
  · intro hrw hdenied r hr
    constructor
    · intro herr
      cases hid : JMap.index responseObject "ID" with
      | null => rfl
      | str id =>
        rw [serviceInspectOperation_of_parsed ru ac response executor responseObject id
          hparse hid] at hr
        split at hr
        · simp only [Run.done.injEq] at hr
          rw [← hr] at herr
          exact absurd herr (hrw _ _)
        · split at hr
          · simp only [Run.done.injEq] at hr
            rw [← hr] at herr
            exact absurd herr (hrw _ _)
          · simp only [Run.done.injEq] at hr
            rw [← hr] at herr
            exact absurd herr hdenied
      | bool b =>
        have h1 : JMap.index responseObject serviceIdentifier = JSON.bool b := hid
        unfold serviceInspectOperation at hr
        rw [hparse] at hr
        simp [h1] at hr
      | num n =>
        have h1 : JMap.index responseObject serviceIdentifier = JSON.num n := hid
        unfold serviceInspectOperation at hr
        rw [hparse] at hr
        simp [h1] at hr
      | arr xs =>
        have h1 : JMap.index responseObject serviceIdentifier = JSON.arr xs := hid
        unfold serviceInspectOperation at hr
        rw [hparse] at hr
        simp [h1] at hr
      | obj kvs =>
        have h1 : JMap.index responseObject serviceIdentifier = JSON.obj kvs := hid
        unfold serviceInspectOperation at hr
        rw [hparse] at hr
        simp [h1] at hr
    · intro hid
      rw [hnull ac hid] at hr
      simp only [Run.done.injEq] at hr
      rw [← hr]

/-- Witness of C14: a response object without "ID". -/
theorem serviceInspectOperation_identifier_not_found_witness :
    JMap.index [("Name", JSON.str "web")] "ID" = JSON.null ∧
    serviceInspectOperation bodyResponseutils (sampleAccessControl ["a"] ["alpha"])
        (JSON.obj [("Name", JSON.str "web")]) ⟨sampleContext⟩ =
      Run.done ⟨[], some "Docker service identifier not found"⟩ :=
  ⟨rfl, (serviceInspectOperation_identifier_not_found bodyResponseutils
    (sampleAccessControl ["a"] ["alpha"]) (JSON.obj [("Name", JSON.str "web")])
    ⟨sampleContext⟩ [("Name", JSON.str "web")] rfl).1.mpr rfl⟩

/-! ## Label extractors -/

/-- C15: the label extractors follow a fixed path and treat absence as none.  The two
service extractors return `GetJSONObject(GetJSONObject(o, "Spec"), "Labels")` and agree on
every input; the task extractor returns the object at Spec, ContainerSpec, Labels.  With
`GetJSONObject` reading one field (none when absent), each extractor returns none when a
segment of its path is absent and the labels map at the end of the path otherwise. -/
theorem label_extractors_follow_fixed_path {Resp : Type} (ru : responseutils Resp)
    (o : JMap) :
    extractServiceLabelsFromServiceInspectObject ru o =
        (ru.GetJSONObject o "Spec").bind (fun spec => ru.GetJSONObject spec "Labels") ∧
    extractServiceLabelsFromServiceListObject ru o =
        (ru.GetJSONObject o "Spec").bind (fun spec => ru.GetJSONObject spec "Labels") ∧
    extractTaskLabelsFromTaskListObject ru o =
        ((ru.GetJSONObject o "Spec").bind
          (fun spec => ru.GetJSONObject spec "ContainerSpec")).bind
          (fun containerSpec => ru.GetJSONObject containerSpec "Labels") ∧
    extractServiceLabelsFromServiceInspectObject ru o =
        extractServiceLabelsFromServiceListObject ru o ∧
    (ru.GetJSONObject = GetJSONObject →
      (JMap.index o "Spec" = JSON.null →
        extractServiceLabelsFromServiceInspectObject ru o = none ∧
        extractServiceLabelsFromServiceListObject ru o = none ∧
        extractTaskLabelsFromTaskListObject ru o = none) ∧
      (∀ spec : JMap, JMap.index o "Spec" = JSON.obj spec →
        (JMap.index spec "Labels" = JSON.null →
          extractServiceLabelsFromServiceInspectObject ru o = none ∧
          extractServiceLabelsFromServiceListObject ru o = none) ∧
        (∀ labels : JMap, JMap.index spec "Labels" = JSON.obj labels →
          extractServiceLabelsFromServiceInspectObject ru o = some labels ∧
          extractServiceLabelsFromServiceListObject ru o = some labels) ∧
        (JMap.index spec "ContainerSpec" = JSON.null →
          extractTaskLabelsFromTaskListObject ru o = none) ∧
        (∀ containerSpec : JMap, JMap.index spec "ContainerSpec" = JSON.obj containerSpec →
          (JMap.index containerSpec "Labels" = JSON.null →
            extractTaskLabelsFromTaskListObject ru o = none) ∧
          (∀ labels : JMap, JMap.index containerSpec "Labels" = JSON.obj labels →
            extractTaskLabelsFromTaskListObject ru o = some labels)))) := by
  refine ⟨?_, ?_, ?_, rfl, ?_⟩
  · unfold extractServiceLabelsFromServiceInspectObject
    cases ru.GetJSONObject o "Spec" <;> rfl
  · unfold extractServiceLabelsFromServiceListObject
    cases ru.GetJSONObject o "Spec" <;> rfl
  · unfold extractTaskLabelsFromTaskListObject
    cases ru.GetJSONObject o "Spec" with
    | none => rfl
    | some spec =>
      simp only [Option.some_bind]
      cases ru.GetJSONObject spec "ContainerSpec" <;> rfl
  · intro hG
    refine ⟨?_, ?_⟩
    · intro h
      simp [extractServiceLabelsFromServiceInspectObject,
        extractServiceLabelsFromServiceListObject, extractTaskLabelsFromTaskListObject, hG,
        GetJSONObject, h]
    · intro spec hspec
      refine ⟨?_, ?_, ?_, ?_⟩
      · intro h
        simp [extractServiceLabelsFromServiceInspectObject,
          extractServiceLabelsFromServiceListObject, hG, GetJSONObject, hspec, h]
      · intro labels h
        simp [extractServiceLabelsFromServiceInspectObject,
          extractServiceLabelsFromServiceListObject, hG, GetJSONObject, hspec, h]
      · intro h
        simp [extractTaskLabelsFromTaskListObject, hG, GetJSONObject, hspec, h]
      · intro containerSpec hc
        refine ⟨?_, ?_⟩
        · intro h
          simp [extractTaskLabelsFromTaskListObject, hG, GetJSONObject, hspec, hc, h]
        · intro labels h
          simp [extractTaskLabelsFromTaskListObject, hG, GetJSONObject, hspec, hc, h]

/-- Witness of C15: a service with a labels map at Spec.Labels. -/
theorem label_extractors_follow_fixed_path_witness :
    extractServiceLabelsFromServiceInspectObject bodyResponseutils
        [("ID", JSON.str "a"), ("Spec", JSON.obj [("Labels",
          JSON.obj [("com.docker.stack.namespace", JSON.str "alpha")])])] =
      some [("com.docker.stack.namespace", JSON.str "alpha")] ∧
    extractServiceLabelsFromServiceListObject bodyResponseutils
        [("ID", JSON.str "a"), ("Spec", JSON.obj [("Labels",
          JSON.obj [("com.docker.stack.namespace", JSON.str "alpha")])])] =
      some [("com.docker.stack.namespace", JSON.str "alpha")] :=
  (((label_extractors_follow_fixed_path bodyResponseutils
    [("ID", JSON.str "a"), ("Spec", JSON.obj [("Labels",
      JSON.obj [("com.docker.stack.namespace", JSON.str "alpha")])])]).2.2.2.2 rfl).2
    [("Labels", JSON.obj [("com.docker.stack.namespace", JSON.str "alpha")])] rfl).2.1
    [("com.docker.stack.namespace", JSON.str "alpha")] rfl

/-! ## Well-formed input and the privileged task list -/

/-- C19: the error and type-assertion branches of the list pipelines are unreachable on
well-formed input.  For every list in which each element is a JSON object whose identifier
field ("ID" for services, "ServiceID" for tasks) is present and is a string,
`filterServiceList`, `decorateServiceList` and `filterTaskList` return a list and no error,
without panicking; on the empty list each returns the empty list. -/
theorem list_pipelines_succeed_on_well_formed_input {Resp : Type} (ru : responseutils Resp)
    (ac : accessControl) (context : restrictedDockerOperationContext)
    (resourceControls : List ResourceControl) (services tasks : List JSON)
    (hs : ∀ x ∈ services, ∃ (m : JMap) (id : String),
      x = JSON.obj m ∧ JMap.index m "ID" = JSON.str id)
    (ht : ∀ x ∈ tasks, ∃ (m : JMap) (id : String),
      x = JSON.obj m ∧ JMap.index m "ServiceID" = JSON.str id) :
    (∃ filtered : List JSON,
      filterServiceList ru ac services context = Run.done (some filtered, none)) ∧
    (∃ decorated : List JSON,
      decorateServiceList ru ac services resourceControls =
        Run.done (some decorated, none)) ∧
    (∃ filtered : List JSON,
      filterTaskList ru ac tasks context = Run.done (some filtered, none)) ∧
    filterServiceList ru ac [] context = Run.done (some [], none) ∧
    decorateServiceList ru ac [] resourceControls = Run.done (some [], none) ∧
    filterTaskList ru ac [] context = Run.done (some [], none) := by
  refine ⟨?_, ?_, ?_, rfl, rfl, rfl⟩
  · rw [filterServiceList_eq]
    exact ⟨_, listLoop_of_carries serviceIdentifier _ _ services [] hs⟩
  · rw [decorateServiceList_eq]
    exact ⟨_, listLoop_of_carries serviceIdentifier _ _ services [] hs⟩
  · rw [filterTaskList_eq]
    exact ⟨_, listLoop_of_carries taskServiceIdentifier _ _ tasks [] ht⟩

/-- Witness of C19: two services with string "ID" and one task with string
"ServiceID". -/
theorem list_pipelines_succeed_on_well_formed_input_witness :
    (∃ filtered : List JSON,
      filterServiceList bodyResponseutils (sampleAccessControl ["a"] [])
        [JSON.obj [("ID", JSON.str "a")], JSON.obj [("ID", JSON.str "b")]] sampleContext =
        Run.done (some filtered, none)) ∧
    (∃ filtered : List JSON,
      filterTaskList bodyResponseutils (sampleAccessControl ["a"] [])
        [JSON.obj [("ServiceID", JSON.str "a")]] sampleContext =
        Run.done (some filtered, none)) :=
  have h := list_pipelines_succeed_on_well_formed_input bodyResponseutils
    (sampleAccessControl ["a"] []) sampleContext []
    [JSON.obj [("ID", JSON.str "a")], JSON.obj [("ID", JSON.str "b")]]
    [JSON.obj [("ServiceID", JSON.str "a")]]
    (by
      intro x hx
      simp only [List.mem_cons, List.mem_singleton, List.not_mem_nil, or_false] at hx
      rcases hx with rfl | rfl
      · exact ⟨_, _, rfl, rfl⟩
      · exact ⟨_, _, rfl, rfl⟩)
    (by
      intro x hx
      rw [List.mem_singleton] at hx
      subst hx
      exact ⟨_, _, rfl, rfl⟩)
  ⟨h.1, h.2.2.1⟩

/-- C20: for a privileged principal the task list is passed through untouched.  With
`isAdmin = true` or `endpointResourceAccess = true` and a successfully parsed task array,
whatever its elements, `taskListOperation` makes the single call `RewriteResponse` with
exactly the parsed array and status 200; the outcome is the same for any other resource
controls in the context and any other decision helpers. -/
theorem privileged_task_list_passes_through {Resp : Type} (ru : responseutils Resp)
    (ac : accessControl) (response : Resp) (executor : operationExecutor)
    (responseArray : List JSON)
    (hpriv : executor.operationContext.isAdmin = true ∨
      executor.operationContext.endpointResourceAccess = true)
    (hparse : ru.GetResponseAsJSONArray response = Except.ok responseArray) :
    taskListOperation ru ac response executor =
        Run.done ⟨[ResponseCall.RewriteResponse response (JSON.arr responseArray) 200],
          ru.RewriteResponse response (JSON.arr responseArray) 200⟩ ∧
    ∀ (resourceControls : List ResourceControl) (ac' : accessControl),
      taskListOperation ru ac' response
          ⟨{ executor.operationContext with resourceControls := resourceControls }⟩ =
        taskListOperation ru ac response executor := by
  have hall : ∀ (ac1 : accessControl) (executor1 : operationExecutor),
      (executor1.operationContext.isAdmin = true ∨
        executor1.operationContext.endpointResourceAccess = true) →
      taskListOperation ru ac1 response executor1 =
        Run.done ⟨[ResponseCall.RewriteResponse response (JSON.arr responseArray) 200],
          ru.RewriteResponse response (JSON.arr responseArray) 200⟩ := by
    intro ac1 executor1 h
    have hcond : (!executor1.operationContext.isAdmin &&
        !executor1.operationContext.endpointResourceAccess) = false := by
      rcases h with h | h <;> simp [h]
    unfold taskListOperation
    rw [hparse]
    simp only [hcond, StatusOK]
    rfl
  refine ⟨hall ac executor hpriv, ?_⟩
  intro resourceControls ac'
  rw [hall ac executor hpriv]
  exact hall ac' _ hpriv

/-- Witness of C20: an administrator lists tasks, one of them without "ServiceID". -/
theorem privileged_task_list_passes_through_witness :
    taskListOperation bodyResponseutils (sampleAccessControl [] [])
        (JSON.arr [JSON.obj [("ServiceID", JSON.str "a")], JSON.obj [("ID", JSON.str "t2")]])
        ⟨adminContext⟩ =
      Run.done ⟨[ResponseCall.RewriteResponse
        (JSON.arr [JSON.obj [("ServiceID", JSON.str "a")], JSON.obj [("ID", JSON.str "t2")]])
        (JSON.arr [JSON.obj [("ServiceID", JSON.str "a")], JSON.obj [("ID", JSON.str "t2")]])
        200], none⟩ :=
  (privileged_task_list_passes_through bodyResponseutils (sampleAccessControl [] [])
    (JSON.arr [JSON.obj [("ServiceID", JSON.str "a")], JSON.obj [("ID", JSON.str "t2")]])
    ⟨adminContext⟩
    [JSON.obj [("ServiceID", JSON.str "a")], JSON.obj [("ID", JSON.str "t2")]]
    (Or.inl rfl) rfl).1

/-! ## Scenarios of section 8, with the decision engine of section 4.3 -/

/-- C16: tasks inherit their service's access decision.  For any helpers, the primary
decision of `filterTaskList` on a task is taken on the value of its "ServiceID" field
under the Service control type.  With the helpers as specified in section 4.3, two tasks
of service "svc-1" (with their own IDs "task-1" and "task-2"), the control
`{Type: Service, ResourceIdentifier: "svc-1", OwnerUserIDs: {42}}` and the context of user
42 (not admin, no endpoint access), `filterTaskList` returns both tasks in input order, each
decorated with the service's control. -/
theorem tasks_inherit_service_access_decision :
    (∀ {Resp : Type} (ru : responseutils Resp) (ac : accessControl)
        (context : restrictedDockerOperationContext) (serviceID : String) (rest : JMap),
      filterTaskList ru ac [JSON.obj (("ServiceID", JSON.str serviceID) :: rest)] context =
        if (ac.applyResourceAccessControl (("ServiceID", JSON.str serviceID) :: rest)
            serviceID context ResourceControlType.ServiceResourceControl).2 = true then
          Run.done (some [JSON.obj (ac.applyResourceAccessControl
            (("ServiceID", JSON.str serviceID) :: rest) serviceID context
            ResourceControlType.ServiceResourceControl).1], none)
        else if (ac.applyResourceAccessControlFromLabel
            (extractTaskLabelsFromTaskListObject ru (ac.applyResourceAccessControl
              (("ServiceID", JSON.str serviceID) :: rest) serviceID context
              ResourceControlType.ServiceResourceControl).1)
            (ac.applyResourceAccessControl (("ServiceID", JSON.str serviceID) :: rest)
              serviceID context ResourceControlType.ServiceResourceControl).1
            "com.docker.stack.namespace" context
            ResourceControlType.StackResourceControl).2 = true then
          Run.done (some [JSON.obj (ac.applyResourceAccessControlFromLabel
            (extractTaskLabelsFromTaskListObject ru (ac.applyResourceAccessControl
              (("ServiceID", JSON.str serviceID) :: rest) serviceID context
              ResourceControlType.ServiceResourceControl).1)
            (ac.applyResourceAccessControl (("ServiceID", JSON.str serviceID) :: rest)
              serviceID context ResourceControlType.ServiceResourceControl).1
            "com.docker.stack.namespace" context
            ResourceControlType.StackResourceControl).1], none)
        else Run.done (some [], none)) ∧
    filterTaskList bodyResponseutils specAccessControl
        [JSON.obj [("ID", JSON.str "task-1"), ("ServiceID", JSON.str "svc-1")],
          JSON.obj [("ID", JSON.str "task-2"), ("ServiceID", JSON.str "svc-1")]]
        ownerContext =
      Run.done (some
        [JSON.obj [("ID", JSON.str "task-1"), ("ServiceID", JSON.str "svc-1"),
            ("ResourceControl", serviceControl.toJSON)],
          JSON.obj [("ID", JSON.str "task-2"), ("ServiceID", JSON.str "svc-1"),
            ("ResourceControl", serviceControl.toJSON)]], none) := by
  refine ⟨?_, rfl⟩
  intro Resp ru ac context serviceID rest
  have hid : JMap.index (("ServiceID", JSON.str serviceID) :: rest) taskServiceIdentifier =
      JSON.str serviceID := by
    simp [JMap.index, taskServiceIdentifier, List.lookup]
  simp only [filterTaskList, filterTaskListLoop, hid, taskLabelForStackIdentifier]
  cases h1 : (ac.applyResourceAccessControl (("ServiceID", JSON.str serviceID) :: rest)
      serviceID context ResourceControlType.ServiceResourceControl).2
  · simp only [Bool.not_false, if_true, Bool.false_eq_true, if_false]
    split <;> simp
  · simp [h1]

/-- Counterexample to C17 as stated: with the helpers of section 4.3, the service "web" of
stack "alpha" and only the public Stack control, `filterServiceList` returns the service
as the primary decision returned it (no Service control: public by default, undecorated),
which is not the result of the label-derived decision (the service decorated with the
stack's control). -/
theorem service_without_control_kept_by_primary_decision :
    filterServiceList bodyResponseutils specAccessControl [JSON.obj (alphaService "web")]
        stackContext =
      Run.done (some [JSON.obj (alphaService "web")], none) ∧
    applyResourceAccessControlFromLabel
        (extractServiceLabelsFromServiceListObject bodyResponseutils (alphaService "web"))
        (alphaService "web") "com.docker.stack.namespace" stackContext
        ResourceControlType.StackResourceControl =
      (alphaService "web" ++ [("ResourceControl", stackControl.toJSON)], true) ∧
    JSON.obj (alphaService "web") ≠
      JSON.obj (alphaService "web" ++ [("ResourceControl", stackControl.toJSON)]) := by
  refine ⟨rfl, rfl, ?_⟩
  intro h
  have hlen := congrArg List.length (JSON.obj.inj h)
  simp [alphaService] at hlen

/-- C17 (as amended): with the helpers of section 4.3, a service that carries "ID" and the
label `com.docker.stack.namespace = "alpha"` at Spec.Labels, the only control being the
public Stack control "alpha", and user 7 (not admin, no endpoint access):
`filterServiceList` returns that one service.  There being no Service control, the primary
decision allows it undecorated, and the element returned is the primary decision's
object. -/
theorem service_without_control_is_retained (id : String) :
    applyResourceAccessControl (alphaService id) id stackContext
        ResourceControlType.ServiceResourceControl = (alphaService id, true) ∧
    filterServiceList bodyResponseutils specAccessControl [JSON.obj (alphaService id)]
        stackContext =
      Run.done (some [JSON.obj (applyResourceAccessControl (alphaService id) id stackContext
        ResourceControlType.ServiceResourceControl).1], none) ∧
    filterServiceList bodyResponseutils specAccessControl [JSON.obj (alphaService id)]
        stackContext =
      Run.done (some [JSON.obj (alphaService id)], none) :=
  ⟨rfl, rfl, rfl⟩

/-! ## Migration to DB version 22: persistence failures -/

/-- C11 (code defect): a failing `UpdateRole` is not surfaced.  On the store `legacyStore`
in which the call number 3, the first `UpdateRole`, fails with "disk full",
`updateUsersAndRolesToDBVersion22` drops that error: it goes on to read role 1 again,
makes the six remaining role calls, runs the recomputation and returns no error.  A failing
`UpdateUser` (call number 1) is surfaced, with no storage call after it. -/
theorem updateUsersAndRolesToDBVersion22_drops_UpdateRole_error :
    (legacyStoreFailingAt 3 "disk full").faults 3 = some "disk full" ∧
    (updateUsersAndRolesToDBVersion22 sampleDefaults noRecomputation
        (legacyStoreFailingAt 3 "disk full")).2 = none ∧
    (updateUsersAndRolesToDBVersion22 sampleDefaults noRecomputation
        (legacyStoreFailingAt 3 "disk full")).1.log =
      [StorageCall.Users,
        StorageCall.UpdateUser 1
          { ID := 1, Username := "admin", Role := 1,
            PortainerAuthorizations := ["PortainerDefault"] },
        StorageCall.Role 1,
        StorageCall.UpdateRole 1
          { ID := 1, Name := "Endpoint administrator",
            Authorizations := ["EndpointAdministrator"] },
        StorageCall.Role 1,
        StorageCall.UpdateRole 1
          { ID := 1, Name := "Endpoint administrator", Authorizations := ["HelpDesk"] },
        StorageCall.Role 1,
        StorageCall.UpdateRole 1
          { ID := 1, Name := "Endpoint administrator", Authorizations := ["StandardUser"] },
        StorageCall.Role 1,
        StorageCall.UpdateRole 1
          { ID := 1, Name := "Endpoint administrator", Authorizations := ["ReadOnlyUser"] }] ∧
    (updateUsersAndRolesToDBVersion22 sampleDefaults noRecomputation
        (legacyStoreFailingAt 1 "disk full")).2 = some "disk full" ∧
    (updateUsersAndRolesToDBVersion22 sampleDefaults noRecomputation
        (legacyStoreFailingAt 1 "disk full")).1.log =
      [StorageCall.Users,
        StorageCall.UpdateUser 1
          { ID := 1, Username := "admin", Role := 1,
            PortainerAuthorizations := ["PortainerDefault"] }] :=
  ⟨rfl, rfl, rfl, rfl, rfl⟩

/-! ## Migration to DB version 22: lemmas on the store -/

theorem put_append_of_not_mem {α : Type} (key : Nat) (v w : α) (pre rest : List (Nat × α))
    (h : key ∉ pre.map Prod.fst) :
    put key v (pre ++ (key, w) :: rest) = pre ++ (key, v) :: rest := by
  induction pre with
  | nil => simp [put]
  | cons p pre ih =>
    obtain ⟨k, x⟩ := p
    simp only [List.map_cons, List.mem_cons, not_or] at h
    have hk : ¬ k = key := fun e => h.1 e.symm
    have ih2 := ih h.2
    simp only [List.cons_append, put, hk, if_false]
    exact congrArg _ ih2

/-- Writing back, under its own ID, the image of every record of a well-formed bucket
rewrites the bucket in place. -/
theorem foldl_put_eq_map {α : Type} (idOf : α → Nat) (f : α → α) (pre rest : List (Nat × α))
    (hnodup : ((pre ++ rest).map Prod.fst).Nodup) (hid : ∀ p ∈ rest, idOf p.2 = p.1) :
    (rest.map Prod.snd).foldl (fun b v => put (idOf v) (f v) b) (pre ++ rest) =
      pre ++ rest.map (fun p => (p.1, f p.2)) := by
  induction rest generalizing pre with
  | nil => simp
  | cons p rest ih =>
    obtain ⟨k, v⟩ := p
    have hk : idOf v = k := hid (k, v) (List.mem_cons_self _ _)
    have hnot : k ∉ pre.map Prod.fst := by
      intro hmem
      rw [List.map_append, List.nodup_append] at hnodup
      exact hnodup.2.2 hmem (by simp)
    simp only [List.map_cons, List.foldl_cons, hk]
    rw [put_append_of_not_mem k (f v) v pre rest hnot]
    have hnodup2 : (((pre ++ [(k, f v)]) ++ rest).map Prod.fst).Nodup := by
      simpa using hnodup
    have := ih (pre ++ [(k, f v)]) hnodup2 (fun q hq => hid q (List.mem_cons_of_mem _ hq))
    simpa using this

theorem isBucket_map {α : Type} (idOf : α → Nat) (f : α → α) (b : List (Nat × α))
    (hf : ∀ v, idOf (f v) = idOf v) (h : isBucket idOf b) :
    isBucket idOf (b.map (fun p => (p.1, f p.2))) := by
  refine ⟨?_, ?_⟩
  · have : (b.map (fun p => (p.1, f p.2))).map Prod.fst = b.map Prod.fst := by
      simp [List.map_map, Function.comp]
    rw [this]
    exact h.1
  · intro p hp
    obtain ⟨q, hq, rfl⟩ := List.mem_map.mp hp
    simp only [hf]
    exact h.2 q hq

/-- The state reached by a run of the resource-control loop that returns no error. -/
theorem updateResourceControlsLoop_of_ok (rcs : List ResourceControl) (s s1 : Store)
    (h : updateResourceControlsLoop rcs s = (s1, none)) :
    s1.resourceControls =
        rcs.foldl (fun b rc => put rc.ID { rc with AdministratorsOnly := false } b)
          s.resourceControls ∧
      s1.users = s.users ∧ s1.roles = s.roles ∧ s1.faults = s.faults ∧
      s1.log = s.log ++ rcs.map (fun rc =>
        StorageCall.UpdateResourceControl rc.ID { rc with AdministratorsOnly := false }) := by
  induction rcs generalizing s with
  | nil =>
    simp only [updateResourceControlsLoop, Prod.mk.injEq, and_true] at h
    subst h
    simp
  | cons rc rest ih =>
    simp only [updateResourceControlsLoop, resourceControlService.UpdateResourceControl] at h
    cases hf : s.fault with
    | some err => rw [hf] at h; simp at h
    | none =>
      rw [hf] at h
      obtain ⟨h1, h2, h3, h4, h5⟩ := ih _ h
      refine ⟨?_, ?_, ?_, ?_, ?_⟩
      · rw [h1]; rfl
      · rw [h2]; rfl
      · rw [h3]; rfl
      · rw [h4]; rfl
      · rw [h5]
        simp [Store.record]

/-- The state reached by `updateResourceControlsToDBVersion22` when it returns no
error. -/
theorem updateResourceControlsToDBVersion22_of_ok (s : Store)
    (h : (updateResourceControlsToDBVersion22 s).2 = none) :
    (updateResourceControlsToDBVersion22 s).1.resourceControls =
        (s.resourceControls.map Prod.snd).foldl
          (fun b rc => put rc.ID { rc with AdministratorsOnly := false } b)
          s.resourceControls ∧
      (updateResourceControlsToDBVersion22 s).1.users = s.users ∧
      (updateResourceControlsToDBVersion22 s).1.roles = s.roles ∧
      (updateResourceControlsToDBVersion22 s).1.faults = s.faults ∧
      (updateResourceControlsToDBVersion22 s).1.log =
        s.log ++ StorageCall.ResourceControls ::
          (s.resourceControls.map Prod.snd).map (fun rc =>
            StorageCall.UpdateResourceControl rc.ID
              { rc with AdministratorsOnly := false }) := by
  unfold updateResourceControlsToDBVersion22 resourceControlService.ResourceControls at h ⊢
  cases hf : s.fault with
  | some err => rw [hf] at h; simp at h
  | none =>
    rw [hf] at h
    simp only [hf]
    simp only at h
    have hres : updateResourceControlsLoop (s.resourceControls.map Prod.snd)
        (s.record StorageCall.ResourceControls) =
        ((updateResourceControlsLoop (s.resourceControls.map Prod.snd)
          (s.record StorageCall.ResourceControls)).1, none) := by
      rw [← h]
    obtain ⟨h1, h2, h3, h4, h5⟩ := updateResourceControlsLoop_of_ok _ _ _ hres
    refine ⟨h1, h2, h3, h4, ?_⟩
    rw [h5]
    simp [Store.record]

/-- The resource-control bucket after a run of `updateResourceControlsToDBVersion22`
without error on a well-formed bucket. -/
theorem updateResourceControlsToDBVersion22_bucket (s : Store)
    (hwf : isBucket ResourceControl.ID s.resourceControls)
    (hok : (updateResourceControlsToDBVersion22 s).2 = none) :
    (updateResourceControlsToDBVersion22 s).1.resourceControls =
      s.resourceControls.map (fun p => (p.1, { p.2 with AdministratorsOnly := false })) := by
  rw [(updateResourceControlsToDBVersion22_of_ok s hok).1]
  have := foldl_put_eq_map ResourceControl.ID
    (fun rc => { rc with AdministratorsOnly := false }) [] s.resourceControls
    (by simpa using hwf.1) hwf.2
  simpa using this

/-! ## Migration to DB version 22: resource controls -/

/-- C12: after `updateResourceControlsToDBVersion22` completes without error on a store
whose resource controls are held under their own IDs, every resource-control record has
`AdministratorsOnly = false` and nothing else changed: the keys are the same, in the same
order, each record was written back under its own ID, every other field of every record
has its value of before the step, and the users and roles are untouched. -/
theorem resource_control_migration_clears_only_the_flag (s : Store)
    (hwf : isBucket ResourceControl.ID s.resourceControls)
    (hok : (updateResourceControlsToDBVersion22 s).2 = none) :
    (∀ p ∈ (updateResourceControlsToDBVersion22 s).1.resourceControls,
      p.2.AdministratorsOnly = false) ∧
    (updateResourceControlsToDBVersion22 s).1.resourceControls.map Prod.fst =
      s.resourceControls.map Prod.fst ∧
    (∀ (i : Nat) (k : Nat) (rc : ResourceControl), s.resourceControls[i]? = some (k, rc) →
      ∃ rc1 : ResourceControl,
        (updateResourceControlsToDBVersion22 s).1.resourceControls[i]? = some (k, rc1) ∧
        rc1.ID = rc.ID ∧ rc1.ResourceIdentifier = rc.ResourceIdentifier ∧
        rc1.Type_ = rc.Type_ ∧ rc1.Public = rc.Public ∧
        rc1.OwnerUserIDs = rc.OwnerUserIDs ∧ rc1.OwnerTeamIDs = rc.OwnerTeamIDs ∧
        rc1.AdministratorsOnly = false) ∧
    (updateResourceControlsToDBVersion22 s).1.log =
      s.log ++ StorageCall.ResourceControls ::
        s.resourceControls.map (fun p =>
          StorageCall.UpdateResourceControl p.2.ID
            { p.2 with AdministratorsOnly := false }) ∧
    (updateResourceControlsToDBVersion22 s).1.users = s.users ∧
    (updateResourceControlsToDBVersion22 s).1.roles = s.roles := by
  have hb := updateResourceControlsToDBVersion22_bucket s hwf hok
  obtain ⟨_, hu, hr, _, hl⟩ := updateResourceControlsToDBVersion22_of_ok s hok
  refine ⟨?_, ?_, ?_, ?_, hu, hr⟩
  · intro p hp
    rw [hb] at hp
    obtain ⟨q, _, rfl⟩ := List.mem_map.mp hp
    rfl
  · rw [hb]
    simp [List.map_map, Function.comp]
  · intro i k rc hi
    refine ⟨{ rc with AdministratorsOnly := false }, ?_, rfl, rfl, rfl, rfl, rfl, rfl, rfl⟩
    rw [hb, List.getElem?_map, hi]
    rfl
  · rw [hl]
    simp [List.map_map, Function.comp]

/-- Witness of C12: three controls restricted to administrators, stored under the keys 1,
2 and 5. -/
theorem resource_control_migration_clears_only_the_flag_witness :
    (updateResourceControlsToDBVersion22 controlsStore).2 = none ∧
    (∀ p ∈ (updateResourceControlsToDBVersion22 controlsStore).1.resourceControls,
      p.2.AdministratorsOnly = false) ∧
    (updateResourceControlsToDBVersion22 controlsStore).1.resourceControls.map Prod.fst =
      [1, 2, 5] :=
  have h := resource_control_migration_clears_only_the_flag controlsStore
    (by simp [isBucket, controlsStore]) rfl
  ⟨rfl, h.1, h.2.1⟩

/-- C18: re-running the resource-control migration reaches the same fixed point.  On a
store whose resource controls are held under their own IDs, when no storage call fails in
either run, running `updateResourceControlsToDBVersion22` twice in succession leaves the
resource-control bucket exactly as running it once does. -/
theorem resource_control_migration_is_idempotent (s : Store)
    (hwf : isBucket ResourceControl.ID s.resourceControls)
    (hfirst : (updateResourceControlsToDBVersion22 s).2 = none)
    (hsecond : (updateResourceControlsToDBVersion22
      (updateResourceControlsToDBVersion22 s).1).2 = none) :
    (updateResourceControlsToDBVersion22
        (updateResourceControlsToDBVersion22 s).1).1.resourceControls =
      (updateResourceControlsToDBVersion22 s).1.resourceControls := by
  have hb := updateResourceControlsToDBVersion22_bucket s hwf hfirst
  have hwf1 : isBucket ResourceControl.ID
      (updateResourceControlsToDBVersion22 s).1.resourceControls := by
    rw [hb]
    exact isBucket_map ResourceControl.ID
      (fun rc => { rc with AdministratorsOnly := false }) _ (fun _ => rfl) hwf
  rw [updateResourceControlsToDBVersion22_bucket _ hwf1 hsecond, hb]
  simp [List.map_map, Function.comp]

/-- Witness of C18: the three controls of `controlsStore`, migrated twice. -/
theorem resource_control_migration_is_idempotent_witness :
    (updateResourceControlsToDBVersion22
        (updateResourceControlsToDBVersion22 controlsStore).1).1.resourceControls =
      (updateResourceControlsToDBVersion22 controlsStore).1.resourceControls :=
  resource_control_migration_is_idempotent controlsStore
    (by simp [isBucket, controlsStore]) rfl rfl

/-! ## Migration to DB version 22: users -/

theorem lookup_put {α : Type} (key j : Nat) (v : α) (b : List (Nat × α)) :
    (put key v b).lookup j = if j = key then some v else b.lookup j := by
  induction b with
  | nil =>
    simp only [put, List.lookup]
    by_cases h : j = key
    · subst h
      simp
    · have hb : (j == key) = false := by simpa using h
      simp [hb, h]
  | cons p rest ih =>
    obtain ⟨k, w⟩ := p
    by_cases hk : k = key
    · subst hk
      simp only [put, if_true, List.lookup]
      by_cases h : j = k
      · subst h
        simp
      · have hb : (j == k) = false := by simpa using h
        simp [hb, h]
    · simp only [put, hk, if_false, List.lookup]
      by_cases hjk : j = k
      · subst hjk
        simp [hk]
      · have hb : (j == k) = false := by simpa using hjk
        simp only [hb, ih]

/-- The run of the user loop on a store in which no call fails. -/
theorem updateUsersLoop_of_no_fault (d : portainerDefaults) (us : List User) (s : Store)
    (hf : ∀ n, s.faults n = none) :
    updateUsersLoop d us s =
      ({ s with
          users := us.foldl (fun b u => put u.ID
            { u with PortainerAuthorizations := d.DefaultPortainerAuthorizations } b) s.users,
          log := s.log ++ us.map (fun u => StorageCall.UpdateUser u.ID
            { u with PortainerAuthorizations := d.DefaultPortainerAuthorizations }) },
        none) := by
  induction us generalizing s with
  | nil => simp [updateUsersLoop]
  | cons u rest ih =>
    have hfault : s.fault = none := hf _
    simp only [updateUsersLoop, userService.UpdateUser, hfault]
    rw [ih]
    · simp [Store.record]
    · intro n
      exact hf n

/-- One round of the role section on a store in which no call fails: role 1 is read, then
written back under its own ID. -/
theorem role_round (s : Store) (hf : ∀ n, s.faults n = none) (role : Role)
    (hrole : s.roles.lookup 1 = some role) (a : Authorizations) :
    roleService.Role s 1 = (s.record (StorageCall.Role 1), Except.ok role) ∧
    ∃ s1 : Store,
      (roleService.UpdateRole (s.record (StorageCall.Role 1)) role.ID
        { role with Authorizations := a }).1 = s1 ∧
      (∀ n, s1.faults n = none) ∧ s1.users = s.users ∧
      s1.log = s.log ++ [StorageCall.Role 1,
        StorageCall.UpdateRole role.ID { role with Authorizations := a }] ∧
      ∃ role1 : Role, s1.roles.lookup 1 = some role1 := by
  have hfault : s.fault = none := hf _
  have hfault1 : (s.record (StorageCall.Role 1)).fault = none := hf _
  refine ⟨by simp [roleService.Role, hfault, hrole], _, rfl, ?_, ?_, ?_, ?_⟩
  · intro n
    simp only [roleService.UpdateRole, hfault1]
    exact hf n
  · simp only [roleService.UpdateRole, hfault1]
    rfl
  · simp only [roleService.UpdateRole, hfault1]
    simp [Store.record]
  · simp only [roleService.UpdateRole, hfault1]
    have : ((s.record (StorageCall.Role 1)).roles) = s.roles := rfl
    simp only [Store.record, lookup_put]
    split
    · exact ⟨_, rfl⟩
    · exact ⟨role, hrole⟩

/-- C13: in `updateUsersAndRolesToDBVersion22`, on a store whose users are held under
their own IDs and in which no storage call fails, every existing user is written
individually, under its own ID, with `PortainerAuthorizations` replaced by
`DefaultPortainerAuthorizations()` and every other field unchanged.  These writes come
right after the `Users` read and before every role call, and the state `before` they lead
to is the one handed to the authorization recomputation, whose result is the result of
the step (when role 1 cannot be read, the step returns that error instead). -/
theorem users_are_persisted_before_roles (d : portainerDefaults)
    (UpdateUsersAuthorizations : Store → Store × Option GoError) (s : Store)
    (hwf : isBucket User.ID s.users) (hf : ∀ n, s.faults n = none) :
    ∃ (before : Store) (roleCalls : List StorageCall),
      updateUsersAndRolesToDBVersion22 d UpdateUsersAuthorizations s =
        (match s.roles.lookup 1 with
          | some _ => UpdateUsersAuthorizations before
          | none => (before, some ErrObjectNotFound)) ∧
      before.users = s.users.map (fun p =>
        (p.1, { p.2 with PortainerAuthorizations := d.DefaultPortainerAuthorizations })) ∧
      before.log = (s.log ++ StorageCall.Users :: s.users.map (fun p =>
        StorageCall.UpdateUser p.2.ID
          { p.2 with PortainerAuthorizations := d.DefaultPortainerAuthorizations })) ++
        roleCalls ∧
      ∀ c ∈ roleCalls, (∃ id, c = StorageCall.Role id) ∨
        ∃ id role, c = StorageCall.UpdateRole id role := by
  have hfault : s.fault = none := hf _
  have hU : userService.Users s =
      (s.record StorageCall.Users, Except.ok (s.users.map Prod.snd)) := by
    simp [userService.Users, hfault]
  obtain ⟨s2, hs2⟩ : ∃ s2 : Store, s2 =
      { s.record StorageCall.Users with
        users := (s.users.map Prod.snd).foldl (fun b u => put u.ID
          { u with PortainerAuthorizations := d.DefaultPortainerAuthorizations } b)
          (s.record StorageCall.Users).users,
        log := (s.record StorageCall.Users).log ++ (s.users.map Prod.snd).map
          (fun u => StorageCall.UpdateUser u.ID
            { u with PortainerAuthorizations := d.DefaultPortainerAuthorizations }) } :=
    ⟨_, rfl⟩
  have hloop : updateUsersLoop d (s.users.map Prod.snd) (s.record StorageCall.Users) =
      (s2, none) := by
    rw [hs2]
    exact updateUsersLoop_of_no_fault d _ _ (fun n => hf n)
  have hf2 : ∀ n, s2.faults n = none := by
    intro n
    rw [hs2]
    exact hf n
  have hroles2 : s2.roles = s.roles := by rw [hs2]; rfl
  have husers2 : s2.users = s.users.map (fun p =>
      (p.1, { p.2 with PortainerAuthorizations := d.DefaultPortainerAuthorizations })) := by
    rw [hs2]
    have := foldl_put_eq_map User.ID
      (fun u => { u with PortainerAuthorizations := d.DefaultPortainerAuthorizations })
      [] s.users (by simpa using hwf.1) hwf.2
    simpa [Store.record] using this
  have hlog2 : s2.log = s.log ++ StorageCall.Users :: s.users.map (fun p =>
      StorageCall.UpdateUser p.2.ID
        { p.2 with PortainerAuthorizations := d.DefaultPortainerAuthorizations }) := by
    rw [hs2]
    simp [Store.record, List.map_map, Function.comp]
  unfold updateUsersAndRolesToDBVersion22
  rw [hU]
  simp only [hloop]
  cases hl : s.roles.lookup 1 with
  | none =>
    have hfault2 : s2.fault = none := hf2 _
    have hR : roleService.Role s2 1 =
        (s2.record (StorageCall.Role 1), Except.error ErrObjectNotFound) := by
      simp [roleService.Role, hfault2, hroles2, hl]
    rw [hR]
    refine ⟨s2.record (StorageCall.Role 1), [StorageCall.Role 1], rfl, husers2, ?_, ?_⟩
    · simp [Store.record, hlog2]
    · intro c hc
      rw [List.mem_singleton] at hc
      exact Or.inl ⟨1, hc⟩
  | some role =>
    have hl2 : s2.roles.lookup 1 = some role := by rw [hroles2]; exact hl
    obtain ⟨hR1, s4, hs4, hf4, hu4, hlog4, role2, hl4⟩ := role_round s2 hf2 role hl2
      d.DefaultEndpointAuthorizationsForEndpointAdministratorRole
    obtain ⟨hR2, s6, hs6, hf6, hu6, hlog6, role3, hl6⟩ := role_round s4 hf4 role2 hl4
      d.DefaultEndpointAuthorizationsForHelpDeskRole
    obtain ⟨hR3, s8, hs8, hf8, hu8, hlog8, role4, hl8⟩ := role_round s6 hf6 role3 hl6
      d.DefaultEndpointAuthorizationsForStandardUserRole
    obtain ⟨hR4, s10, hs10, hf10, hu10, hlog10, role5, hl10⟩ := role_round s8 hf8 role4 hl8
      d.DefaultEndpointAuthorizationsForReadOnlyUserRole
    rw [hR1]
    simp only [hs4]
    rw [hR2]
    simp only [hs6]
    rw [hR3]
    simp only [hs8]
    rw [hR4]
    simp only [hs10]
    refine ⟨s10, [StorageCall.Role 1,
        StorageCall.UpdateRole role.ID { role with Authorizations :=
          d.DefaultEndpointAuthorizationsForEndpointAdministratorRole },
        StorageCall.Role 1,
        StorageCall.UpdateRole role2.ID { role2 with Authorizations :=
          d.DefaultEndpointAuthorizationsForHelpDeskRole },
        StorageCall.Role 1,
        StorageCall.UpdateRole role3.ID { role3 with Authorizations :=
          d.DefaultEndpointAuthorizationsForStandardUserRole },
        StorageCall.Role 1,
        StorageCall.UpdateRole role4.ID { role4 with Authorizations :=
          d.DefaultEndpointAuthorizationsForReadOnlyUserRole }], rfl, ?_, ?_, ?_⟩
    · rw [hu10, hu8, hu6, hu4, husers2]
    · rw [hlog10, hlog8, hlog6, hlog4, hlog2]
      simp
    · intro c hc
      simp only [List.mem_cons, List.mem_singleton, List.not_mem_nil, or_false] at hc
      rcases hc with h | h | h | h | h | h | h | h
      · exact Or.inl ⟨_, h⟩
      · exact Or.inr ⟨_, _, h⟩
      · exact Or.inl ⟨_, h⟩
      · exact Or.inr ⟨_, _, h⟩
      · exact Or.inl ⟨_, h⟩
      · exact Or.inr ⟨_, _, h⟩
      · exact Or.inl ⟨_, h⟩
      · exact Or.inr ⟨_, _, h⟩

/-- Witness of C13: the store `legacyStore`, with one user and role 1 present. -/
theorem users_are_persisted_before_roles_witness :
    ∃ (before : Store) (roleCalls : List StorageCall),
      updateUsersAndRolesToDBVersion22 sampleDefaults noRecomputation legacyStore =
        noRecomputation before ∧
      before.users = [(1, { ID := 1, Username := "admin", Role := 1,
                            PortainerAuthorizations := ["PortainerDefault"] })] ∧
      before.log = ([StorageCall.Users,
        StorageCall.UpdateUser 1
          { ID := 1, Username := "admin", Role := 1,
            PortainerAuthorizations := ["PortainerDefault"] }]) ++ roleCalls :=
  (users_are_persisted_before_roles sampleDefaults noRecomputation legacyStore
    (by simp [isBucket, legacyStore]) (fun _ => rfl)).imp
    (fun _ h => h.imp (fun _ h1 => ⟨h1.1, h1.2.1, h1.2.2.1⟩))

end Portainer
